import Mathlib

/-!
Shallow embedding of the multi-key quota-aware YouTube API client
(`src/services/youtubeService.ts`) and proofs about its behaviour.

The embedding mirrors the TypeScript module's state and control flow:

* module-level mutable state (`apiKeys`, `currentKeyIndex`, `sessionQuotaUsed`)
  becomes an explicit `RouterState` record threaded through the operations;
* the nondeterministic network is an explicit environment: for the router a
  function from the attempted key index to the outcome of that HTTP attempt,
  and for the aggregate fetchers a record of per-endpoint oracles;
* JavaScript `undefined`-able fields become `Option`;
* a thrown JavaScript error becomes the `err`/`Except.error` branch.
-/

/-- `KeyStatus` from `types.ts` as used by the service:
`'valid' | 'invalid' | 'checking' | 'quota_exceeded' | 'unknown'`. -/
inductive KeyStatus where
  | valid
  | invalid
  | checking
  | quota_exceeded
  | unknown
deriving DecidableEq, BEq, Repr

/-- An entry of the credential pool.  `dailyUsage` is `Option` because the
TypeScript field may be `undefined` (the code guards with `|| 0` / `?? 0`). -/
structure ApiKey where
  value : String
  status : KeyStatus
  dailyUsage : Option Nat
deriving DecidableEq, BEq, Repr

/-- The module-level mutable state of `youtubeService.ts`:
`let apiKeys`, `let currentKeyIndex`, `let sessionQuotaUsed`. -/
structure RouterState where
  apiKeys : List ApiKey
  currentKeyIndex : Nat
  sessionQuotaUsed : Nat
deriving DecidableEq, Repr

/-- The `QUOTA_COSTS` table (`Record<string, number>`); `none` models a name
absent from the record. -/
def QUOTA_COSTS (endpoint : String) : Option Nat :=
  if endpoint = "channels" then some 1
  else if endpoint = "playlistItems" then some 1
  else if endpoint = "videos" then some 1
  else if endpoint = "search" then some 100
  else if endpoint = "i18nLanguages" then some 1
  else none

/-- `getTotalDailyUsage`: `apiKeys.reduce((total, key) => total + (key.dailyUsage || 0), 0)`. -/
def getTotalDailyUsage (keys : List ApiKey) : Nat :=
  keys.foldl (fun total key => total + key.dailyUsage.getD 0) 0

/-- The daily usage recorded at index `j` of a pool (0 when absent,
mirroring `dailyUsage || 0`). -/
def usageAt (keys : List ApiKey) (j : Nat) : Nat :=
  match keys[j]? with
  | some k => k.dailyUsage.getD 0
  | none => 0

/-- `getInitialQuota`: returns the current `{session, daily}` pair. -/
def getInitialQuota (s : RouterState) : Nat × Nat :=
  (s.sessionQuotaUsed, getTotalDailyUsage s.apiKeys)

/-- The body of the `keys.map` inside `setApiKeys`: the new list is built from
`keys`, looking each value up in the previous pool;
`dailyUsage: newKey.dailyUsage ?? existing.dailyUsage ?? 0`. -/
def setApiKeysMerge (oldKeys newKeys : List ApiKey) : List ApiKey :=
  newKeys.map fun newKey =>
    match oldKeys.find? (fun k => k.value == newKey.value) with
    | some existing =>
        { newKey with
          dailyUsage := some ((newKey.dailyUsage.orElse fun _ => existing.dailyUsage).getD 0) }
    | none => { newKey with dailyUsage := some (newKey.dailyUsage.getD 0) }

/-- `setApiKeys`: replaces the pool, resets the cursor to 0 when it is out of
bounds for the new list, and notifies the quota observer with the recomputed
`{session, daily}` pair (returned as the second component). -/
def setApiKeys (s : RouterState) (keys : List ApiKey) : RouterState × (Nat × Nat) :=
  let newKeys := setApiKeysMerge s.apiKeys keys
  let newIndex := if s.currentKeyIndex ≥ newKeys.length then 0 else s.currentKeyIndex
  ({ apiKeys := newKeys, currentKeyIndex := newIndex, sessionQuotaUsed := s.sessionQuotaUsed },
   (s.sessionQuotaUsed, getTotalDailyUsage newKeys))

/-- `updateKeyUsage(keyIndex, cost)`.  Returns the updated state together with
the `{session, daily}` pair handed to the quota-change observer (`none` when
the index is out of bounds and the function returns early, or if no observer
call happens).  The fire-and-forget persistence write is outside the model. -/
def updateKeyUsage (s : RouterState) (keyIndex cost : Nat) :
    RouterState × Option (Nat × Nat) :=
  match s.apiKeys[keyIndex]? with
  | none => (s, none)
  | some keyObj =>
      let newUsage := keyObj.dailyUsage.getD 0 + cost
      let newKeys := s.apiKeys.set keyIndex { keyObj with dailyUsage := some newUsage }
      let newSession := s.sessionQuotaUsed + cost
      ({ apiKeys := newKeys, currentKeyIndex := s.currentKeyIndex,
         sessionQuotaUsed := newSession },
       some (newSession, getTotalDailyUsage newKeys))

/-- Outcome of one HTTP attempt with a given key, as seen by the router loop:
`success` is an ok response whose body parses (the parsed JSON body);
`successBadBody` is an ok response whose `await response.json()` then rejects
(with the rejection's message) — in the source this happens only after
`updateKeyUsage` has charged the key, `currentKeyIndex` has been moved and
the index observer fired (lines 112-116), and the rejection is then caught
and the rotation continues; `httpError` is a non-ok response carrying the
HTTP status and the (optional) machine-readable reason and server message
extracted from the error body; `transport` is a thrown exception from
`fetch` itself (with its `message`). -/
inductive AttemptOutcome (β : Type) where
  | success (body : β)
  | successBadBody (message : String)
  | httpError (status : Nat) (reason : Option String) (message : Option String)
  | transport (message : String)
deriving DecidableEq, Repr

/-- `errorData.error?.message || \x60API Request failed with status ...\x60`
(JavaScript `||`: an empty string also falls back). -/
def httpErrorMessage (status : Nat) (message : Option String) : String :=
  match message with
  | some m => if m = "" then "API Request failed with status " ++ toString status else m
  | none => "API Request failed with status " ++ toString status

/-- The classification at line 105 of the source: quota/daily-limit reason or
status 403/429 means a key-related (rotate-to-next-key) error. -/
def isKeyRelatedError (status : Nat) (reason : Option String) : Bool :=
  reason == some "quotaExceeded" || reason == some "dailyLimitExceeded"
    || status == 403 || status == 429

/-- The final `throw new Error(...)` message of `fetchYouTubeAPI`
(JavaScript `lastError?.message || 'Check connection.'`). -/
def aggregateMessage (lastError : Option String) : String :=
  "API Request failed after trying all keys: " ++
    (match lastError with
     | some m => if m = "" then "Check connection." else m
     | none => "Check connection.")

/-- The skip policy at lines 91-92 of the source, as a Boolean on one key. -/
def shouldSkip (numKeys : Nat) (key : ApiKey) (cost : Nat) : Bool :=
  (decide (1 < numKeys) &&
    (decide (key.status = KeyStatus.invalid) || decide (key.status = KeyStatus.quota_exceeded)))
  || (decide (10000 < key.dailyUsage.getD 0 + cost) && decide (1 < numKeys))

/-- Result of the router loop: success carries the winning key index and the
parsed body; `err` carries the thrown error's message. -/
inductive FetchOutcome (β : Type) where
  | ok (keyIndex : Nat) (body : β)
  | err (message : String)
deriving DecidableEq, Repr

/-- The index sequence the `for` loop visits:
`keyIndex = (startIndex + i) % apiKeys.length` for `i = 0 .. apiKeys.length-1`. -/
def rotationOrder (start n : Nat) : List Nat :=
  (List.range n).map fun i => (start + i) % n

/-- What `fetchYouTubeAPI` (and its loop) produces: the outcome, the module
state after the call, the list of key indices actually attempted (indices
for which a fetch was issued), and the `{session, daily}` pairs handed to
the quota-change observer, in invocation order. -/
structure FetchResult (β : Type) where
  outcome : FetchOutcome β
  state : RouterState
  attempts : List Nat
  quotaNotifications : List (Nat × Nat)
deriving Repr

/-- Lines 112-113 of the source, run on every ok response before the body is
parsed: `updateKeyUsage(keyIndex, cost)` followed by
`currentKeyIndex = keyIndex`.  Returns the new module state and the quota
notifications fired (as a list). -/
def chargeKey (s : RouterState) (keyIndex cost : Nat) : RouterState × List (Nat × Nat) :=
  let u := updateKeyUsage s keyIndex cost
  ({ apiKeys := u.1.apiKeys, currentKeyIndex := keyIndex,
     sessionQuotaUsed := u.1.sessionQuotaUsed }, u.2.toList)

/-- The body of the `for` loop of `fetchYouTubeAPI`, recursing over the index
sequence with the module state threaded through.

Control-flow notes, faithful to the source:
* in the non-ok branch the code sets `lastError` and, when the error is not
  key-related, executes `throw lastError` — but that `throw` sits inside the
  `try` block whose `catch (error)` clause assigns `lastError = error` and
  `continue`s.  So every non-ok response, key-related or not, leads to the
  next candidate key; `isKeyRelatedError` has no observable effect on the
  loop's result;
* in the ok branch, `updateKeyUsage(keyIndex, cost)` and
  `currentKeyIndex = keyIndex` run (lines 112-113) before
  `return await response.json()` (line 116); when that parse rejects
  (`successBadBody`), the already-performed charge and cursor move stand,
  the catch records the rejection and the rotation continues. -/
def fetchGo (env : Nat → AttemptOutcome β) (cost : Nat) :
    List Nat → RouterState → Option String → FetchResult β
  | [], s, lastError =>
      { outcome := FetchOutcome.err (aggregateMessage lastError), state := s,
        attempts := [], quotaNotifications := [] }
  | keyIndex :: rest, s, lastError =>
      match s.apiKeys[keyIndex]? with
      | none =>
          -- unreachable: every index in the rotation order is < apiKeys.length,
          -- and the loop never changes the pool's length
          fetchGo env cost rest s lastError
      | some apiKeyObj =>
          if shouldSkip s.apiKeys.length apiKeyObj cost then
            fetchGo env cost rest s lastError
          else
            match env keyIndex with
            | AttemptOutcome.success body =>
                let c := chargeKey s keyIndex cost
                { outcome := FetchOutcome.ok keyIndex body, state := c.1,
                  attempts := [keyIndex], quotaNotifications := c.2 }
            | AttemptOutcome.successBadBody m =>
                let c := chargeKey s keyIndex cost
                let r := fetchGo env cost rest c.1 (some m)
                { outcome := r.outcome, state := r.state,
                  attempts := keyIndex :: r.attempts,
                  quotaNotifications := c.2 ++ r.quotaNotifications }
            | AttemptOutcome.httpError status _reason message =>
                let r := fetchGo env cost rest s (some (httpErrorMessage status message))
                { outcome := r.outcome, state := r.state,
                  attempts := keyIndex :: r.attempts,
                  quotaNotifications := r.quotaNotifications }
            | AttemptOutcome.transport m =>
                let r := fetchGo env cost rest s (some m)
                { outcome := r.outcome, state := r.state,
                  attempts := keyIndex :: r.attempts,
                  quotaNotifications := r.quotaNotifications }

/-- `fetchYouTubeAPI(endpoint, params)`.  The `env` argument models the
network: the outcome of one attempt as a function of the attempted key
index.  With a non-empty pool the call is the loop started at the rotation
cursor; the loop's final state is the module state after the call (also on
the exhaustion path, where charges and cursor moves made by `successBadBody`
attempts stand even though the call raises). -/
def fetchYouTubeAPI (env : Nat → AttemptOutcome β) (s : RouterState) (endpoint : String) :
    FetchResult β :=
  if s.apiKeys.length = 0 then
    { outcome := FetchOutcome.err "Please configure at least one YouTube Data API key in Settings.",
      state := s, attempts := [], quotaNotifications := [] }
  else
    fetchGo env ((QUOTA_COSTS endpoint).getD 1)
      (rotationOrder s.currentKeyIndex s.apiKeys.length) s none

example :
    (fetchYouTubeAPI (fun _ => AttemptOutcome.success 7)
      { apiKeys := [⟨"a", KeyStatus.unknown, some 0⟩], currentKeyIndex := 0,
        sessionQuotaUsed := 0 } "videos").outcome = FetchOutcome.ok 0 7 := by
  rfl

example :
    (fetchYouTubeAPI (β := Nat) (fun _ => AttemptOutcome.transport "down")
      { apiKeys := [⟨"a", KeyStatus.unknown, some 0⟩, ⟨"b", KeyStatus.unknown, some 0⟩],
        currentKeyIndex := 1, sessionQuotaUsed := 0 } "videos").attempts = [1, 0] := by
  rfl

example :
    (fetchYouTubeAPI (β := Nat)
      (fun i => if i = 0 then AttemptOutcome.successBadBody "Unexpected end of JSON input"
                else AttemptOutcome.success 9)
      { apiKeys := [⟨"a", KeyStatus.unknown, some 0⟩, ⟨"b", KeyStatus.unknown, some 0⟩],
        currentKeyIndex := 0, sessionQuotaUsed := 0 } "videos").state.sessionQuotaUsed = 2 := by
  rfl

/-! ## Aggregate fetchers

The aggregate fetchers consume the router only through its caller-visible
interface: `fetchYouTubeAPI(endpoint, params)` resolves with a parsed body or
rejects with an error message.  `ApiEnv` packages one such oracle per
endpoint, with the response body in the (typed rendering of the) shape each
call site traverses.  Parameters are the assoc lists the call sites build. -/

/-- `snippet` of an item of a `channels` response, with the fields the service
reads.  `thumbnailsHighUrl` is `snippet.thumbnails.high?.url` (`none` when
`high` is absent); `thumbnailsDefaultUrl` is `snippet.thumbnails.default.url`. -/
structure ChannelSnippet where
  title : String
  description : String
  customUrl : Option String
  publishedAt : String
  thumbnailsHighUrl : Option String
  thumbnailsDefaultUrl : String
deriving DecidableEq, Repr

/-- `statistics` of a `channels` item. -/
structure ChannelStatistics where
  subscriberCount : String
  videoCount : String
  viewCount : String
deriving DecidableEq, Repr

/-- An item of a `channels` response; `uploadsPlaylistId` is
`contentDetails.relatedPlaylists.uploads`. -/
structure ChannelItem where
  id : String
  snippet : ChannelSnippet
  statistics : ChannelStatistics
  uploadsPlaylistId : String
deriving DecidableEq, Repr

/-- Body of a `channels` response (`items` may be absent). -/
structure ChannelsResponse where
  items : Option (List ChannelItem)
deriving DecidableEq, Repr

/-- `snippet` of a `search` response item, with the fields the service reads. -/
structure SearchSnippet where
  channelId : String
  publishedAt : String
  title : String
  description : String
  thumbnailsHighUrl : Option String
  thumbnailsDefaultUrl : String
deriving DecidableEq, Repr

/-- An item of a `search` response; `idVideoId` is `item.id.videoId`. -/
structure SearchItem where
  idVideoId : String
  snippet : SearchSnippet
deriving DecidableEq, Repr

/-- Body of a `search` response. -/
structure SearchResponse where
  items : Option (List SearchItem)
deriving DecidableEq, Repr

/-- `snippet.resourceId` of a `playlistItems` item (`videoId` may be absent). -/
structure PlaylistResourceId where
  videoId : Option String
deriving DecidableEq, Repr

/-- `snippet` of a `playlistItems` item (`resourceId` may be absent). -/
structure PlaylistItemSnippet where
  resourceId : Option PlaylistResourceId
deriving DecidableEq, Repr

/-- An item of a `playlistItems` response (`snippet` may be absent). -/
structure PlaylistItem where
  snippet : Option PlaylistItemSnippet
deriving DecidableEq, Repr

/-- Body of a `playlistItems` response. -/
structure PlaylistItemsResponse where
  items : Option (List PlaylistItem)
  nextPageToken : Option String
deriving DecidableEq, Repr

/-- `snippet` of a `videos` response item. -/
structure VideoSnippet where
  publishedAt : String
  title : String
  description : String
  thumbnailsHighUrl : Option String
  thumbnailsDefaultUrl : String
deriving DecidableEq, Repr

/-- `statistics` of a `videos` response item. -/
structure VideoStatistics where
  viewCount : String
  likeCount : String
  commentCount : String
deriving DecidableEq, Repr

/-- An item of a `videos` response. -/
structure VideoItem where
  id : String
  snippet : VideoSnippet
  statistics : VideoStatistics
deriving DecidableEq, Repr

/-- Body of a `videos` response. -/
structure VideosResponse where
  items : Option (List VideoItem)
deriving DecidableEq, Repr

/-- The router as seen by the aggregate fetchers: one oracle per endpoint,
mapping the request parameters to a parsed body (`Except.ok`) or a raised
error (`Except.error`).  `dateMs` abstracts `new Date(x).getTime()` and
`minus12h` abstracts the `setHours(getHours() - 12)`/`toISOString` step of
`getAbsoluteOldestVideo`. -/
structure ApiEnv where
  channels : List (String × String) → Except String ChannelsResponse
  search : List (String × String) → Except String SearchResponse
  playlistItems : List (String × String) → Except String PlaylistItemsResponse
  videos : List (String × String) → Except String VideosResponse
  dateMs : String → Int
  minus12h : String → String

/-- `VideoStat` as assembled by the service. -/
structure VideoStat where
  id : String
  publishedAt : String
  title : String
  description : String
  thumbnailUrl : String
  viewCount : String
  likeCount : String
  commentCount : String
deriving DecidableEq, Repr

/-- The `status` tag of a `ChannelStats`. -/
inductive ChannelStatus where
  | active
  | terminated
  | error
deriving DecidableEq, Repr

/-- `ChannelStats` as assembled by the service (fields the service writes). -/
structure ChannelStats where
  id : String
  title : String
  description : String
  customUrl : String
  publishedAt : String
  thumbnailUrl : String
  subscriberCount : String
  videoCount : String
  viewCount : String
  uploadsPlaylistId : String
  history : List String
  newestVideo : Option VideoStat
  oldestVideo : Option VideoStat
  status : ChannelStatus
deriving DecidableEq, Repr

/-- `high?.url || default.url` (JavaScript `||`: an empty string also falls
back to the default thumbnail). -/
def thumbOr (high : Option String) (dflt : String) : String :=
  match high with
  | some u => if u = "" then dflt else u
  | none => dflt

/-- Rendering of `channelIdentifier.startsWith("UC")` that the kernel can
evaluate: prefix test on the character lists. -/
def strStartsWith (s p : String) : Bool := p.data.isPrefixOf s.data

/-- Rendering of JavaScript `key.trim()` (strip leading and trailing
whitespace) on the character list. -/
def jsTrim (s : String) : String :=
  { data := ((s.data.dropWhile Char.isWhitespace).reverse.dropWhile Char.isWhitespace).reverse }

/-- `resolveChannelId`: returns the input unchanged when it starts with "UC";
otherwise tries a `forUsername` lookup, then a channel search, and falls back
to the input itself. -/
def resolveChannelId (env : ApiEnv) (channelIdentifier : String) : String :=
  if strStartsWith channelIdentifier "UC" then channelIdentifier
  else
    let viaUsername :=
      match env.channels [("part", "id"), ("forUsername", channelIdentifier)] with
      | Except.ok data =>
          match data.items with
          | some (item :: _) => some item.id
          | _ => none
      | Except.error _ => none
    match viaUsername with
    | some cid => cid
    | none =>
        match env.search
            [("part", "snippet"), ("q", channelIdentifier), ("type", "channel"),
             ("maxResults", "1")] with
        | Except.ok searchData =>
            match searchData.items with
            | some (item :: _) => item.snippet.channelId
            | _ => channelIdentifier
        | Except.error _ => channelIdentifier

/-- Builds a `VideoStat` from a `videos` response item (the object literal at
lines 209-218 / 318-322 of the source). -/
def mkVideoStatOfItem (item : VideoItem) : VideoStat :=
  { id := item.id
    publishedAt := item.snippet.publishedAt
    title := item.snippet.title
    description := item.snippet.description
    thumbnailUrl := thumbOr item.snippet.thumbnailsHighUrl item.snippet.thumbnailsDefaultUrl
    viewCount := item.statistics.viewCount
    likeCount := item.statistics.likeCount
    commentCount := item.statistics.commentCount }

/-- `getAbsoluteNewestVideo`: one playlist entry, then its statistics; the
surrounding try/catch turns every failure (including a missing
`snippet.resourceId.videoId` chain, accessed without optional chaining) into
`null`. -/
def getAbsoluteNewestVideo (env : ApiEnv) (uploadsPlaylistId : String) : Option VideoStat :=
  let attempt : Except String (Option VideoStat) := do
    let playlistData ← env.playlistItems
      [("part", "snippet"), ("playlistId", uploadsPlaylistId), ("maxResults", "1")]
    match playlistData.items with
    | none => return none
    | some [] => return none
    | some (item0 :: _) =>
        match item0.snippet with
        | none => Except.error "TypeError"
        | some sn =>
            match sn.resourceId with
            | none => Except.error "TypeError"
            | some rid =>
                match rid.videoId with
                | none =>
                    -- `videoId` itself may be undefined without throwing here;
                    -- the subsequent `videos` call is issued with it anyway.
                    runStats "undefined"
                | some vid => runStats vid
  match attempt with
  | Except.ok v => v
  | Except.error _ => none
where
  runStats (videoId : String) : Except String (Option VideoStat) := do
    let statsData ← env.videos [("part", "snippet,statistics"), ("id", videoId)]
    match statsData.items with
    | none => return none
    | some [] => return none
    | some (item :: _) => return some (mkVideoStatOfItem item)

/-- `getAbsoluteOldestVideo`: video search from 12h before the channel's
creation, client-side stable sort ascending by publish time, earliest result;
every failure becomes `null`. -/
def getAbsoluteOldestVideo (env : ApiEnv) (channelId channelPublishedAt : String) :
    Option VideoStat :=
  let attempt : Except String (Option VideoStat) := do
    let data ← env.search
      [("part", "snippet"), ("channelId", channelId), ("type", "video"),
       ("order", "date"), ("publishedAfter", env.minus12h channelPublishedAt),
       ("maxResults", "50")]
    match data.items with
    | none => return none
    | some [] => return none
    | some items =>
        let stats := items.map fun item =>
          ({ id := item.idVideoId
             publishedAt := item.snippet.publishedAt
             title := item.snippet.title
             description := item.snippet.description
             thumbnailUrl := thumbOr item.snippet.thumbnailsHighUrl item.snippet.thumbnailsDefaultUrl
             viewCount := "0", likeCount := "0", commentCount := "0" } : VideoStat)
        let sorted := stats.mergeSort fun a b => env.dateMs a.publishedAt ≤ env.dateMs b.publishedAt
        return sorted.head?
  match attempt with
  | Except.ok v => v
  | Except.error _ => none

/-- The placeholder `ChannelStats` built in the catch branch of
`getChannelStats`; `now` stands for `new Date().toISOString()`. -/
def placeholderChannelStats (resolvedId now : String) : ChannelStats :=
  { id := if strStartsWith resolvedId "UC" then resolvedId else "INVALID_ID"
    title := resolvedId
    description := "Channel unavailable or terminated."
    customUrl := resolvedId
    publishedAt := now
    thumbnailUrl := "https://www.gstatic.com/youtube/img/branding/youtubelogo/svg/youtubelogo.svg"
    subscriberCount := "0"
    videoCount := "0"
    viewCount := "0"
    uploadsPlaylistId := ""
    history := []
    newestVideo := none
    oldestVideo := none
    status := ChannelStatus.terminated }

/-- The try block of `getChannelStats` after identifier resolution: the
metadata call, the `NOT_FOUND` check, the two video sub-fetches, and the
assembly of the active `ChannelStats` (where `snippet.thumbnails.high.url`
is read without optional chaining, so a missing `high` throws). -/
def getChannelStatsTry (env : ApiEnv) (resolvedId : String) : Except String ChannelStats := do
  let channelData ← env.channels
    [("part", "snippet,statistics,contentDetails"), ("id", resolvedId)]
  match channelData.items with
  | none => Except.error "NOT_FOUND"
  | some [] => Except.error "NOT_FOUND"
  | some (channel :: _) =>
      let uploadsPlaylistId := channel.uploadsPlaylistId
      let newest := getAbsoluteNewestVideo env uploadsPlaylistId
      let oldest := getAbsoluteOldestVideo env channel.id channel.snippet.publishedAt
      match channel.snippet.thumbnailsHighUrl with
      | none => Except.error "TypeError"
      | some thumbUrl =>
          Except.ok
            { id := channel.id
              title := channel.snippet.title
              description := channel.snippet.description
              customUrl := channel.snippet.customUrl.getD ""
              publishedAt := channel.snippet.publishedAt
              thumbnailUrl := thumbUrl
              subscriberCount := channel.statistics.subscriberCount
              videoCount := channel.statistics.videoCount
              viewCount := channel.statistics.viewCount
              uploadsPlaylistId := uploadsPlaylistId
              history := []
              newestVideo := newest
              oldestVideo := oldest
              status := ChannelStatus.active }

/-- `getChannelStats`: resolve the identifier, try the metadata fetch, and on
any failure return the placeholder record instead of raising. -/
def getChannelStats (env : ApiEnv) (now channelIdentifier : String) : ChannelStats :=
  let resolvedId := resolveChannelId env channelIdentifier
  match getChannelStatsTry env resolvedId with
  | Except.ok stats => stats
  | Except.error _ => placeholderChannelStats resolvedId now

/-- The parameter list `getChannelVideos` builds for its `playlistItems` call
(`pageToken` appended only when present). -/
def playlistPageParams (playlistId : String) (maxResults : Nat) (pageToken : Option String) :
    List (String × String) :=
  [("part", "snippet"), ("playlistId", playlistId), ("maxResults", toString maxResults)] ++
    (match pageToken with
     | some t => [("pageToken", t)]
     | none => [])

/-- The optional-chaining extraction `item.snippet?.resourceId?.videoId` of
the first map inside `getChannelVideos`. -/
def playlistEntryVideoId (item : PlaylistItem) : Option String :=
  (item.snippet.bind PlaylistItemSnippet.resourceId).bind PlaylistResourceId.videoId

/-- `playlistData.items.map(i => i.snippet?.resourceId?.videoId).filter(Boolean)`:
the ids used for the `videos` call (`Boolean` drops both `undefined` and the
empty string). -/
def playlistVideoIds (items : List PlaylistItem) : List String :=
  (items.filterMap playlistEntryVideoId).filter fun v => v ≠ ""

/-- Lookup in `new Map(videosData.items.map(item => [item.id, item]))`: a
JavaScript `Map` built from an entry list keeps the last binding for a
duplicated key, hence the first match in the reversed list. -/
def jsMapGet (items : List VideoItem) (id : String) : Option VideoItem :=
  items.reverse.find? fun item => item.id == id

/-- The second map inside `getChannelVideos`
(`item.snippet.resourceId.videoId` without optional chaining): a missing
`snippet` or `resourceId` throws, a missing `videoId` just yields `undefined`. -/
def originalOrderVideoId (item : PlaylistItem) : Except String (Option String) :=
  match item.snippet with
  | none => Except.error "TypeError"
  | some sn =>
      match sn.resourceId with
      | none => Except.error "TypeError"
      | some rid => Except.ok rid.videoId

/-- `getChannelVideos(playlistId, maxResults, pageToken?)`.  The try block
fetches a playlist page, batch-fetches statistics for its video ids, and
re-assembles the stats in the playlist's original entry order, dropping
entries whose id is absent from the stats response; the catch branch returns
`{ videos: [] }` (no continuation token).

The source tests falsiness of the comma-joined id string (`if (!videoIds)`);
since every joined element is non-empty (`filter(Boolean)`), that is
equivalent to the id list being empty, which is how the branch is rendered
here. -/
def getChannelVideos (env : ApiEnv) (playlistId : String) (maxResults : Nat)
    (pageToken : Option String) : List VideoStat × Option String :=
  let attempt : Except String (List VideoStat × Option String) := do
    let playlistData ← env.playlistItems (playlistPageParams playlistId maxResults pageToken)
    match playlistData.items with
    | none => return ([], none)
    | some [] => return ([], none)
    | some items =>
        let videoIdList := playlistVideoIds items
        if videoIdList.isEmpty then
          return ([], playlistData.nextPageToken)
        else do
          let videosData ← env.videos
            [("part", "snippet,statistics"), ("id", String.intercalate "," videoIdList)]
          match videosData.items with
          | none => Except.error "TypeError"
          | some videoItems =>
              let originalOrderIds ← items.mapM originalOrderVideoId
              let videos := originalOrderIds.filterMap fun oid =>
                (oid.bind fun id => jsMapGet videoItems id).map mkVideoStatOfItem
              return (videos, playlistData.nextPageToken)
  match attempt with
  | Except.ok page => page
  | Except.error _ => ([], none)

/-- A `Partial<ChannelStats>` as assembled by `getChannelStatsBatch`. -/
structure BatchChannelStats where
  id : String
  title : String
  description : String
  customUrl : String
  publishedAt : String
  thumbnailUrl : String
  subscriberCount : String
  videoCount : String
  viewCount : String
  uploadsPlaylistId : String
  status : ChannelStatus
deriving DecidableEq, Repr

/-- Structural worker for `chunksOf50`: the fuel argument bounds the number
of iterations (it starts at the list's length, which always suffices since
every iteration drops at least one element). -/
def chunksOf50Go : Nat → List String → List (List String)
  | _, [] => []
  | 0, _ :: _ => []
  | fuel + 1, x :: xs => ((x :: xs).take 50) :: chunksOf50Go fuel ((x :: xs).drop 50)

/-- The chunking of the `for (let i = 0; i < channelIds.length; i += 50)`
loop: consecutive slices of at most 50 ids. -/
def chunksOf50 (l : List String) : List (List String) :=
  chunksOf50Go l.length l

/-- The parameter list of one chunk's `channels` call in `getChannelStatsBatch`. -/
def batchChunkParams (chunk : List String) : List (String × String) :=
  [("part", "snippet,statistics,contentDetails"), ("id", String.intercalate "," chunk),
   ("maxResults", "50")]

/-- One loop iteration of `getChannelStatsBatch`: the channels this chunk
contributes.  A failed call is logged and contributes nothing (the catch does
not re-throw); a body without `items` likewise contributes nothing. -/
def batchChunkFetch (env : ApiEnv) (chunk : List String) : List BatchChannelStats :=
  match env.channels (batchChunkParams chunk) with
  | Except.error _ => []
  | Except.ok data =>
      match data.items with
      | none => []
      | some items =>
          items.map fun item =>
            { id := item.id
              title := item.snippet.title
              description := item.snippet.description
              customUrl := item.snippet.customUrl.getD ""
              publishedAt := item.snippet.publishedAt
              thumbnailUrl := thumbOr item.snippet.thumbnailsHighUrl item.snippet.thumbnailsDefaultUrl
              subscriberCount := item.statistics.subscriberCount
              videoCount := item.statistics.videoCount
              viewCount := item.statistics.viewCount
              uploadsPlaylistId := item.uploadsPlaylistId
              status := ChannelStatus.active }

/-- `getChannelStatsBatch(channelIds)`.  Returns the accumulated results plus
(as instrumentation) the list of chunks for which a `channels` call was
issued, in order. -/
def getChannelStatsBatch (env : ApiEnv) (channelIds : List String) :
    List BatchChannelStats × List (List String) :=
  ((chunksOf50 channelIds).foldl (fun results chunk => results ++ batchChunkFetch env chunk) [],
   chunksOf50 channelIds)

/-- Outcome of the single probe request of `validateYouTubeApiKey`, as seen
from the call site: `ok` is a 2xx response; `httpError` carries the reason and
message of the parsed error body; `transport` is a thrown exception
(including a body that fails to parse as JSON). -/
inductive ProbeOutcome where
  | ok
  | httpError (reason : Option String) (message : Option String)
  | transport (message : String)
deriving DecidableEq, Repr

/-- Result type of `validateYouTubeApiKey`. -/
structure ValidationResult where
  status : KeyStatus
  error : Option String
deriving DecidableEq, Repr

/-- `validateYouTubeApiKey(key)`.  The Boolean in the result records whether a
network call was issued (i.e. whether the probe environment was consulted). -/
def validateYouTubeApiKey (probe : ProbeOutcome) (key : String) :
    ValidationResult × Bool :=
  if key = "" ∨ jsTrim key = "" then
    ({ status := KeyStatus.invalid, error := some "Key cannot be empty." }, false)
  else
    match probe with
    | ProbeOutcome.ok => ({ status := KeyStatus.valid, error := none }, true)
    | ProbeOutcome.httpError reason message =>
        if reason == some "quotaExceeded" || reason == some "dailyLimitExceeded" then
          ({ status := KeyStatus.quota_exceeded, error := some "Quota Exceeded" }, true)
        else
          -- `errorData.error?.message || 'Invalid key'`
          ({ status := KeyStatus.invalid,
             error := some (match message with
                            | some m => if m = "" then "Invalid key" else m
                            | none => "Invalid key") }, true)
    | ProbeOutcome.transport m =>
        ({ status := KeyStatus.invalid, error := some m }, true)

/-! ## Lemmas about the router loop -/

/-- The error message the loop records for one attempt's outcome (`none` for
a parsed success, which records nothing). -/
def observedError : AttemptOutcome β → Option String
  | AttemptOutcome.success _ => none
  | AttemptOutcome.successBadBody m => some m
  | AttemptOutcome.httpError status _ message => some (httpErrorMessage status message)
  | AttemptOutcome.transport m => some m

/-- Does this attempt outcome charge the key and then fail (ok response whose
body fails to parse)? -/
def isBadBody : AttemptOutcome β → Bool
  | AttemptOutcome.successBadBody _ => true
  | _ => false

/-- The value of `lastError` after the loop, given the attempted indices and
the incoming `lastError`. -/
def lastObserved (env : Nat → AttemptOutcome β) (t : List Nat) (le : Option String) :
    Option String :=
  match t.getLast? with
  | some j => observedError (env j)
  | none => le

/-- Control skeleton of the router loop over a fixed pool: it computes the
outcome and the attempted indices only, always consulting the pool as it was
when the call began.  Because the rotation order visits each index at most
once and `fetchGo` mutates only entries it has already visited, the skeleton
agrees with `fetchGo` on outcome and attempts (`fetchGo_eq_ctl` below); the
skip-policy and attempt-set lemmas are naturally stated against it. -/
def fetchGoCtl (env : Nat → AttemptOutcome β) (keys : List ApiKey) (cost : Nat) :
    List Nat → Option String → FetchOutcome β × List Nat
  | [], lastError => (FetchOutcome.err (aggregateMessage lastError), [])
  | keyIndex :: rest, lastError =>
      match keys[keyIndex]? with
      | none => fetchGoCtl env keys cost rest lastError
      | some apiKeyObj =>
          if shouldSkip keys.length apiKeyObj cost then
            fetchGoCtl env keys cost rest lastError
          else
            match env keyIndex with
            | AttemptOutcome.success body => (FetchOutcome.ok keyIndex body, [keyIndex])
            | AttemptOutcome.successBadBody m =>
                let r := fetchGoCtl env keys cost rest (some m)
                (r.1, keyIndex :: r.2)
            | AttemptOutcome.httpError status _reason message =>
                let r := fetchGoCtl env keys cost rest (some (httpErrorMessage status message))
                (r.1, keyIndex :: r.2)
            | AttemptOutcome.transport m =>
                let r := fetchGoCtl env keys cost rest (some m)
                (r.1, keyIndex :: r.2)

theorem fetchGoCtl_nil (env : Nat → AttemptOutcome β) (keys : List ApiKey) (cost : Nat)
    (le : Option String) :
    fetchGoCtl env keys cost [] le = (FetchOutcome.err (aggregateMessage le), []) := rfl

theorem fetchGoCtl_cons_oob (env : Nat → AttemptOutcome β) {keys : List ApiKey} (cost : Nat)
    {j : Nat} (rest : List Nat) (le : Option String) (hkey : keys[j]? = none) :
    fetchGoCtl env keys cost (j :: rest) le = fetchGoCtl env keys cost rest le := by
  simp [fetchGoCtl, hkey]

theorem fetchGoCtl_cons_skip (env : Nat → AttemptOutcome β) {keys : List ApiKey} {cost : Nat}
    {j : Nat} (rest : List Nat) (le : Option String) {k : ApiKey}
    (hkey : keys[j]? = some k) (hskip : shouldSkip keys.length k cost = true) :
    fetchGoCtl env keys cost (j :: rest) le = fetchGoCtl env keys cost rest le := by
  simp [fetchGoCtl, hkey, hskip]

theorem fetchGoCtl_cons_success {env : Nat → AttemptOutcome β} {keys : List ApiKey} {cost : Nat}
    {j : Nat} (rest : List Nat) (le : Option String) {k : ApiKey} {b : β}
    (hkey : keys[j]? = some k) (hskip : shouldSkip keys.length k cost = false)
    (henv : env j = AttemptOutcome.success b) :
    fetchGoCtl env keys cost (j :: rest) le = (FetchOutcome.ok j b, [j]) := by
  simp [fetchGoCtl, hkey, hskip, henv]

theorem fetchGoCtl_cons_fail {env : Nat → AttemptOutcome β} {keys : List ApiKey} {cost : Nat}
    {j : Nat} (rest : List Nat) (le : Option String) {k : ApiKey} {m : String}
    (hkey : keys[j]? = some k) (hskip : shouldSkip keys.length k cost = false)
    (henv : observedError (env j) = some m) :
    fetchGoCtl env keys cost (j :: rest) le =
      ((fetchGoCtl env keys cost rest (some m)).1,
        j :: (fetchGoCtl env keys cost rest (some m)).2) := by
  cases h : env j with
  | success body => rw [h] at henv; exact absurd henv (by simp [observedError])
  | successBadBody mm =>
      rw [h] at henv
      simp only [observedError, Option.some_inj] at henv
      subst henv
      simp [fetchGoCtl, hkey, hskip, h]
  | httpError status reason message =>
      rw [h] at henv
      simp only [observedError, Option.some_inj] at henv
      subst henv
      simp [fetchGoCtl, hkey, hskip, h]
  | transport mm =>
      rw [h] at henv
      simp only [observedError, Option.some_inj] at henv
      subst henv
      simp [fetchGoCtl, hkey, hskip, h]

theorem fetchGoCtl_attempts_sublist (env : Nat → AttemptOutcome β) (keys : List ApiKey)
    (cost : Nat) (l : List Nat) (le : Option String) :
    (fetchGoCtl env keys cost l le).2.Sublist l := by
  induction l generalizing le with
  | nil => simp [fetchGoCtl_nil]
  | cons j rest ih =>
      cases hkey : keys[j]? with
      | none => rw [fetchGoCtl_cons_oob env cost rest le hkey]; exact (ih le).cons j
      | some k =>
          by_cases hskip : shouldSkip keys.length k cost = true
          · rw [fetchGoCtl_cons_skip env rest le hkey hskip]; exact (ih le).cons j
          · replace hskip := Bool.not_eq_true _ ▸ hskip
            cases hobs : observedError (env j) with
            | none =>
                cases h : env j with
                | success body =>
                    rw [fetchGoCtl_cons_success rest le hkey hskip h]
                    simpa using (List.nil_sublist rest).cons₂ j
                | successBadBody mm => rw [h] at hobs; simp [observedError] at hobs
                | httpError status reason message => rw [h] at hobs; simp [observedError] at hobs
                | transport mm => rw [h] at hobs; simp [observedError] at hobs
            | some m =>
                rw [fetchGoCtl_cons_fail rest le hkey hskip hobs]
                exact (ih (some m)).cons₂ j

theorem fetchGoCtl_attempts_eligible (env : Nat → AttemptOutcome β) (keys : List ApiKey)
    (cost : Nat) (l : List Nat) (le : Option String) :
    ∀ j ∈ (fetchGoCtl env keys cost l le).2,
      ∃ k, keys[j]? = some k ∧ shouldSkip keys.length k cost = false := by
  induction l generalizing le with
  | nil => simp [fetchGoCtl_nil]
  | cons j rest ih =>
      intro x hx
      cases hkey : keys[j]? with
      | none =>
          rw [fetchGoCtl_cons_oob env cost rest le hkey] at hx
          exact ih le x hx
      | some k =>
          by_cases hskip : shouldSkip keys.length k cost = true
          · rw [fetchGoCtl_cons_skip env rest le hkey hskip] at hx
            exact ih le x hx
          · replace hskip := Bool.not_eq_true _ ▸ hskip
            cases hobs : observedError (env j) with
            | none =>
                cases h : env j with
                | success body =>
                    rw [fetchGoCtl_cons_success rest le hkey hskip h] at hx
                    simp only [List.mem_singleton] at hx
                    subst hx
                    exact ⟨k, hkey, hskip⟩
                | successBadBody mm => rw [h] at hobs; simp [observedError] at hobs
                | httpError status reason message => rw [h] at hobs; simp [observedError] at hobs
                | transport mm => rw [h] at hobs; simp [observedError] at hobs
            | some m =>
                rw [fetchGoCtl_cons_fail rest le hkey hskip hobs] at hx
                rcases List.mem_cons.mp hx with hxe | hxr
                · subst hxe; exact ⟨k, hkey, hskip⟩
                · exact ih (some m) x hxr

theorem fetchGoCtl_err_all_eligible_attempted (env : Nat → AttemptOutcome β)
    (keys : List ApiKey) (cost : Nat) (l : List Nat) (le : Option String)
    (m : String) (herr : (fetchGoCtl env keys cost l le).1 = FetchOutcome.err m) :
    ∀ j ∈ l, ∀ k, keys[j]? = some k → shouldSkip keys.length k cost = false →
      j ∈ (fetchGoCtl env keys cost l le).2 := by
  induction l generalizing le with
  | nil => simp
  | cons j rest ih =>
      intro x hx kx hkx hskipx
      cases hkey : keys[j]? with
      | none =>
          rw [fetchGoCtl_cons_oob env cost rest le hkey] at herr ⊢
          rcases List.mem_cons.mp hx with hxe | hxr
          · subst hxe; rw [hkey] at hkx; exact absurd hkx (by simp)
          · exact ih le herr x hxr kx hkx hskipx
      | some k =>
          by_cases hskip : shouldSkip keys.length k cost = true
          · rw [fetchGoCtl_cons_skip env rest le hkey hskip] at herr ⊢
            rcases List.mem_cons.mp hx with hxe | hxr
            · subst hxe
              rw [hkey] at hkx
              cases hkx
              rw [hskipx] at hskip
              exact absurd hskip (by simp)
            · exact ih le herr x hxr kx hkx hskipx
          · replace hskip := Bool.not_eq_true _ ▸ hskip
            cases hobs : observedError (env j) with
            | none =>
                cases h : env j with
                | success body =>
                    rw [fetchGoCtl_cons_success rest le hkey hskip h] at herr
                    exact absurd herr (by simp)
                | successBadBody mm => rw [h] at hobs; simp [observedError] at hobs
                | httpError status reason message => rw [h] at hobs; simp [observedError] at hobs
                | transport mm => rw [h] at hobs; simp [observedError] at hobs
            | some me =>
                rw [fetchGoCtl_cons_fail rest le hkey hskip hobs] at herr ⊢
                rcases List.mem_cons.mp hx with hxe | hxr
                · subst hxe; exact List.mem_cons_self x _
                · exact List.mem_cons_of_mem j (ih (some me) herr x hxr kx hkx hskipx)

theorem fetchGoCtl_err_message (env : Nat → AttemptOutcome β)
    (keys : List ApiKey) (cost : Nat) (l : List Nat) (le : Option String)
    (m : String) (herr : (fetchGoCtl env keys cost l le).1 = FetchOutcome.err m) :
    m = aggregateMessage (lastObserved env (fetchGoCtl env keys cost l le).2 le) := by
  induction l generalizing le with
  | nil =>
      rw [fetchGoCtl_nil] at herr ⊢
      simp only [FetchOutcome.err.injEq] at herr
      simp [lastObserved, herr]
  | cons j rest ih =>
      cases hkey : keys[j]? with
      | none =>
          rw [fetchGoCtl_cons_oob env cost rest le hkey] at herr ⊢
          exact ih le herr
      | some k =>
          by_cases hskip : shouldSkip keys.length k cost = true
          · rw [fetchGoCtl_cons_skip env rest le hkey hskip] at herr ⊢
            exact ih le herr
          · replace hskip := Bool.not_eq_true _ ▸ hskip
            cases hobs : observedError (env j) with
            | none =>
                cases h : env j with
                | success body =>
                    rw [fetchGoCtl_cons_success rest le hkey hskip h] at herr
                    exact absurd herr (by simp)
                | successBadBody mm => rw [h] at hobs; simp [observedError] at hobs
                | httpError status reason message => rw [h] at hobs; simp [observedError] at hobs
                | transport mm => rw [h] at hobs; simp [observedError] at hobs
            | some me =>
                rw [fetchGoCtl_cons_fail rest le hkey hskip hobs] at herr ⊢
                have := ih (some me) herr
                cases ht : (fetchGoCtl env keys cost rest (some me)).2 with
                | nil =>
                    rw [ht] at this
                    simp only [lastObserved, List.getLast?_singleton, List.getLast?_nil] at this ⊢
                    rw [hobs]
                    simpa [lastObserved] using this
                | cons y ys =>
                    rw [ht] at this
                    simpa [lastObserved, List.getLast?_cons_cons] using this

theorem fetchGoCtl_ok_mem_attempts (env : Nat → AttemptOutcome β)
    (keys : List ApiKey) (cost : Nat) (l : List Nat) (le : Option String)
    (i : Nat) (b : β) (hok : (fetchGoCtl env keys cost l le).1 = FetchOutcome.ok i b) :
    i ∈ (fetchGoCtl env keys cost l le).2 := by
  induction l generalizing le with
  | nil => rw [fetchGoCtl_nil] at hok; exact absurd hok (by simp)
  | cons j rest ih =>
      cases hkey : keys[j]? with
      | none =>
          rw [fetchGoCtl_cons_oob env cost rest le hkey] at hok ⊢
          exact ih le hok
      | some k =>
          by_cases hskip : shouldSkip keys.length k cost = true
          · rw [fetchGoCtl_cons_skip env rest le hkey hskip] at hok ⊢
            exact ih le hok
          · replace hskip := Bool.not_eq_true _ ▸ hskip
            cases hobs : observedError (env j) with
            | none =>
                cases h : env j with
                | success body =>
                    rw [fetchGoCtl_cons_success rest le hkey hskip h] at hok ⊢
                    simp only [FetchOutcome.ok.injEq] at hok
                    simp [hok.1]
                | successBadBody mm => rw [h] at hobs; simp [observedError] at hobs
                | httpError status reason message => rw [h] at hobs; simp [observedError] at hobs
                | transport mm => rw [h] at hobs; simp [observedError] at hobs
            | some me =>
                rw [fetchGoCtl_cons_fail rest le hkey hskip hobs] at hok ⊢
                exact List.mem_cons_of_mem j (ih (some me) hok)

/-! ## Unfolding lemmas for the threaded loop -/

theorem updateKeyUsage_some {s : RouterState} {j : Nat} {k : ApiKey} (cost : Nat)
    (hkey : s.apiKeys[j]? = some k) :
    updateKeyUsage s j cost =
      ({ apiKeys := s.apiKeys.set j { k with dailyUsage := some (k.dailyUsage.getD 0 + cost) },
         currentKeyIndex := s.currentKeyIndex,
         sessionQuotaUsed := s.sessionQuotaUsed + cost },
       some (s.sessionQuotaUsed + cost,
         getTotalDailyUsage
           (s.apiKeys.set j { k with dailyUsage := some (k.dailyUsage.getD 0 + cost) }))) := by
  simp [updateKeyUsage, hkey]

theorem chargeKey_eq {s : RouterState} {j : Nat} {k : ApiKey} (cost : Nat)
    (hkey : s.apiKeys[j]? = some k) :
    chargeKey s j cost =
      ({ apiKeys := s.apiKeys.set j { k with dailyUsage := some (k.dailyUsage.getD 0 + cost) },
         currentKeyIndex := j,
         sessionQuotaUsed := s.sessionQuotaUsed + cost },
       [(s.sessionQuotaUsed + cost,
         getTotalDailyUsage
           (s.apiKeys.set j { k with dailyUsage := some (k.dailyUsage.getD 0 + cost) }))]) := by
  simp [chargeKey, updateKeyUsage_some cost hkey]

theorem chargeKey_cursor (s : RouterState) (j cost : Nat) :
    (chargeKey s j cost).1.currentKeyIndex = j := rfl

theorem chargeKey_sess {s : RouterState} {j : Nat} {k : ApiKey} (cost : Nat)
    (hkey : s.apiKeys[j]? = some k) :
    (chargeKey s j cost).1.sessionQuotaUsed = s.sessionQuotaUsed + cost := by
  rw [chargeKey_eq cost hkey]

theorem chargeKey_len {s : RouterState} {j : Nat} {k : ApiKey} (cost : Nat)
    (hkey : s.apiKeys[j]? = some k) :
    (chargeKey s j cost).1.apiKeys.length = s.apiKeys.length := by
  rw [chargeKey_eq cost hkey]
  simp

theorem chargeKey_ne {s : RouterState} {j : Nat} {k : ApiKey} (cost : Nat)
    (hkey : s.apiKeys[j]? = some k) {x : Nat} (hx : x ≠ j) :
    (chargeKey s j cost).1.apiKeys[x]? = s.apiKeys[x]? := by
  rw [chargeKey_eq cost hkey]
  exact List.getElem?_set_ne (fun hc => hx hc.symm)

theorem chargeKey_usage {s : RouterState} {j : Nat} {k : ApiKey} (cost : Nat)
    (hkey : s.apiKeys[j]? = some k) (hlt : j < s.apiKeys.length) :
    usageAt (chargeKey s j cost).1.apiKeys j = usageAt s.apiKeys j + cost := by
  rw [chargeKey_eq cost hkey]
  unfold usageAt
  rw [List.getElem?_set_self hlt, hkey]
  rfl

theorem chargeKey_notifs {s : RouterState} {j : Nat} {k : ApiKey} (cost : Nat)
    (hkey : s.apiKeys[j]? = some k) :
    (chargeKey s j cost).2.getLast? =
      some ((chargeKey s j cost).1.sessionQuotaUsed,
        getTotalDailyUsage (chargeKey s j cost).1.apiKeys) := by
  rw [chargeKey_eq cost hkey]
  rfl

theorem fetchGo_nil (env : Nat → AttemptOutcome β) (cost : Nat) (s : RouterState)
    (le : Option String) :
    fetchGo env cost [] s le =
      { outcome := FetchOutcome.err (aggregateMessage le), state := s,
        attempts := [], quotaNotifications := [] } := rfl

theorem fetchGo_cons_oob (env : Nat → AttemptOutcome β) (cost : Nat) {s : RouterState}
    {j : Nat} (rest : List Nat) (le : Option String) (hkey : s.apiKeys[j]? = none) :
    fetchGo env cost (j :: rest) s le = fetchGo env cost rest s le := by
  simp [fetchGo, hkey]

theorem fetchGo_cons_skip (env : Nat → AttemptOutcome β) {cost : Nat} {s : RouterState}
    {j : Nat} (rest : List Nat) (le : Option String) {k : ApiKey}
    (hkey : s.apiKeys[j]? = some k) (hskip : shouldSkip s.apiKeys.length k cost = true) :
    fetchGo env cost (j :: rest) s le = fetchGo env cost rest s le := by
  simp [fetchGo, hkey, hskip]

theorem fetchGo_cons_success {env : Nat → AttemptOutcome β} {cost : Nat} {s : RouterState}
    {j : Nat} (rest : List Nat) (le : Option String) {k : ApiKey} {b : β}
    (hkey : s.apiKeys[j]? = some k) (hskip : shouldSkip s.apiKeys.length k cost = false)
    (henv : env j = AttemptOutcome.success b) :
    fetchGo env cost (j :: rest) s le =
      { outcome := FetchOutcome.ok j b,
        state := (chargeKey s j cost).1,
        attempts := [j], quotaNotifications := (chargeKey s j cost).2 } := by
  simp [fetchGo, hkey, hskip, henv]

theorem fetchGo_cons_badBody {env : Nat → AttemptOutcome β} {cost : Nat} {s : RouterState}
    {j : Nat} (rest : List Nat) (le : Option String) {k : ApiKey} {m : String}
    (hkey : s.apiKeys[j]? = some k) (hskip : shouldSkip s.apiKeys.length k cost = false)
    (henv : env j = AttemptOutcome.successBadBody m) :
    fetchGo env cost (j :: rest) s le =
      { outcome := (fetchGo env cost rest (chargeKey s j cost).1 (some m)).outcome,
        state := (fetchGo env cost rest (chargeKey s j cost).1 (some m)).state,
        attempts := j :: (fetchGo env cost rest (chargeKey s j cost).1 (some m)).attempts,
        quotaNotifications := (chargeKey s j cost).2 ++
          (fetchGo env cost rest (chargeKey s j cost).1 (some m)).quotaNotifications } := by
  simp [fetchGo, hkey, hskip, henv]

theorem fetchGo_cons_stateless_fail {env : Nat → AttemptOutcome β} {cost : Nat}
    {s : RouterState} {j : Nat} (rest : List Nat) (le : Option String) {k : ApiKey}
    {m : String} (hkey : s.apiKeys[j]? = some k)
    (hskip : shouldSkip s.apiKeys.length k cost = false)
    (henv : observedError (env j) = some m) (hbad : isBadBody (env j) = false) :
    fetchGo env cost (j :: rest) s le =
      { outcome := (fetchGo env cost rest s (some m)).outcome,
        state := (fetchGo env cost rest s (some m)).state,
        attempts := j :: (fetchGo env cost rest s (some m)).attempts,
        quotaNotifications := (fetchGo env cost rest s (some m)).quotaNotifications } := by
  cases h : env j with
  | success body => rw [h] at henv; exact absurd henv (by simp [observedError])
  | successBadBody mm => rw [h] at hbad; exact absurd hbad (by simp [isBadBody])
  | httpError status reason message =>
      rw [h] at henv
      simp only [observedError, Option.some_inj] at henv
      subst henv
      simp [fetchGo, hkey, hskip, h]
  | transport mm =>
      rw [h] at henv
      simp only [observedError, Option.some_inj] at henv
      subst henv
      simp [fetchGo, hkey, hskip, h]

/-- The threaded loop agrees with the control skeleton on outcome and
attempts, provided the current pool agrees with the reference pool on every
index still to be visited (true at the start, and preserved because the loop
mutates only visited indices and the rotation order has no duplicates). -/
theorem fetchGo_eq_ctl (env : Nat → AttemptOutcome β) (cost : Nat) :
    ∀ (l : List Nat) (s s0 : RouterState) (le : Option String),
      s.apiKeys.length = s0.apiKeys.length →
      (∀ j ∈ l, s.apiKeys[j]? = s0.apiKeys[j]?) →
      l.Nodup →
      (fetchGo env cost l s le).outcome = (fetchGoCtl env s0.apiKeys cost l le).1 ∧
      (fetchGo env cost l s le).attempts = (fetchGoCtl env s0.apiKeys cost l le).2 := by
  intro l
  induction l with
  | nil => intro s s0 le _ _ _; exact ⟨rfl, rfl⟩
  | cons j rest ih =>
      intro s s0 le hlen hinv hnd
      have hj : s.apiKeys[j]? = s0.apiKeys[j]? := hinv j (List.mem_cons_self j rest)
      have hndr : rest.Nodup := (List.nodup_cons.mp hnd).2
      have hjr : j ∉ rest := (List.nodup_cons.mp hnd).1
      have hinvr : ∀ x ∈ rest, s.apiKeys[x]? = s0.apiKeys[x]? :=
        fun x hx => hinv x (List.mem_cons_of_mem j hx)
      cases hk : s0.apiKeys[j]? with
      | none =>
          have hkn : s.apiKeys[j]? = none := by rw [hj]; exact hk
          rw [fetchGo_cons_oob env cost rest le hkn, fetchGoCtl_cons_oob env cost rest le hk]
          exact ih s s0 le hlen hinvr hndr
      | some k =>
          have hks : s.apiKeys[j]? = some k := by rw [hj]; exact hk
          by_cases hskip : shouldSkip s0.apiKeys.length k cost = true
          · rw [fetchGo_cons_skip env rest le hks (by rw [hlen]; exact hskip),
              fetchGoCtl_cons_skip env rest le hk hskip]
            exact ih s s0 le hlen hinvr hndr
          · replace hskip := Bool.not_eq_true _ ▸ hskip
            have hskips : shouldSkip s.apiKeys.length k cost = false := by
              rw [hlen]; exact hskip
            cases hobs : observedError (env j) with
            | none =>
                cases h : env j with
                | success body =>
                    rw [fetchGo_cons_success rest le hks hskips h,
                      fetchGoCtl_cons_success rest le hk hskip h]
                    exact ⟨rfl, rfl⟩
                | successBadBody mm => rw [h] at hobs; simp [observedError] at hobs
                | httpError status reason message => rw [h] at hobs; simp [observedError] at hobs
                | transport mm => rw [h] at hobs; simp [observedError] at hobs
            | some m =>
                cases hbad : isBadBody (env j) with
                | false =>
                    rw [fetchGo_cons_stateless_fail rest le hks hskips hobs hbad,
                      fetchGoCtl_cons_fail rest le hk hskip hobs]
                    have := ih s s0 (some m) hlen hinvr hndr
                    exact ⟨this.1, by rw [this.2]⟩
                | true =>
                    cases h : env j with
                    | success body => rw [h] at hobs; simp [observedError] at hobs
                    | httpError status reason message =>
                        rw [h] at hbad; simp [isBadBody] at hbad
                    | transport mm => rw [h] at hbad; simp [isBadBody] at hbad
                    | successBadBody mm =>
                        have hmm : mm = m := by
                          rw [h] at hobs
                          simpa [observedError] using hobs
                        rw [hmm] at h
                        rw [fetchGo_cons_badBody rest le hks hskips h,
                          fetchGoCtl_cons_fail rest le hk hskip hobs]
                        have hlen2 : (chargeKey s j cost).1.apiKeys.length =
                            s0.apiKeys.length := by
                          rw [chargeKey_len cost hks]
                          exact hlen
                        have hinv2 : ∀ x ∈ rest,
                            (chargeKey s j cost).1.apiKeys[x]? = s0.apiKeys[x]? := by
                          intro x hx
                          have hxj : x ≠ j := fun hc => hjr (hc ▸ hx)
                          rw [chargeKey_ne cost hks hxj]
                          exact hinvr x hx
                        have := ih _ s0 (some m) hlen2 hinv2 hndr
                        exact ⟨this.1, by rw [this.2]⟩

/-! ## Rotation order facts -/

theorem rotationOrder_mem_lt {start n j : Nat} (hj : j ∈ rotationOrder start n) : j < n := by
  simp only [rotationOrder, List.mem_map, List.mem_range] at hj
  obtain ⟨i, hi, rfl⟩ := hj
  exact Nat.mod_lt _ (by omega)

theorem rotationOrder_mem_of_lt {n : Nat} (start : Nat) {j : Nat} (hj : j < n) :
    j ∈ rotationOrder start n := by
  have hn : 0 < n := by omega
  have hs : start % n < n := Nat.mod_lt _ hn
  simp only [rotationOrder, List.mem_map, List.mem_range]
  by_cases hc : start % n ≤ j
  · refine ⟨j - start % n, by omega, ?_⟩
    rw [Nat.add_mod, Nat.mod_eq_of_lt (show j - start % n < n by omega)]
    have hsum : start % n + (j - start % n) = j := by omega
    rw [hsum, Nat.mod_eq_of_lt hj]
  · refine ⟨j + n - start % n, by omega, ?_⟩
    rw [Nat.add_mod, Nat.mod_eq_of_lt (show j + n - start % n < n by omega)]
    have hsum : start % n + (j + n - start % n) = j + n := by omega
    rw [hsum, Nat.add_mod_right, Nat.mod_eq_of_lt hj]

theorem rotationOrder_nodup (start n : Nat) : (rotationOrder start n).Nodup := by
  apply List.Nodup.map_on ?_ (List.nodup_range n)
  intro x hx y hy hxy
  simp only [List.mem_range] at hx hy
  have hmod : x % n = y % n := Nat.ModEq.add_left_cancel' start hxy
  rwa [Nat.mod_eq_of_lt hx, Nat.mod_eq_of_lt hy] at hmod

theorem rotationOrder_length (start n : Nat) : (rotationOrder start n).length = n := by
  simp [rotationOrder]

theorem rotationOrder_one (start : Nat) : rotationOrder start 1 = [0] := by
  simp [rotationOrder, List.range_succ, Nat.mod_one]

/-! ## Unfolding lemmas for `fetchYouTubeAPI` -/

theorem fetchYouTubeAPI_empty (env : Nat → AttemptOutcome β) {s : RouterState}
    (endpoint : String) (h : s.apiKeys.length = 0) :
    fetchYouTubeAPI env s endpoint =
      { outcome := FetchOutcome.err "Please configure at least one YouTube Data API key in Settings.",
        state := s, attempts := [], quotaNotifications := [] } := by
  simp [fetchYouTubeAPI, h]

theorem fetchYouTubeAPI_go (env : Nat → AttemptOutcome β) {s : RouterState}
    (endpoint : String) (h : s.apiKeys.length ≠ 0) :
    fetchYouTubeAPI env s endpoint =
      fetchGo env ((QUOTA_COSTS endpoint).getD 1)
        (rotationOrder s.currentKeyIndex s.apiKeys.length) s none := by
  simp [fetchYouTubeAPI, h]

theorem fetchYouTubeAPI_outcome_ctl (env : Nat → AttemptOutcome β) {s : RouterState}
    (endpoint : String) (h : s.apiKeys.length ≠ 0) :
    (fetchYouTubeAPI env s endpoint).outcome =
      (fetchGoCtl env s.apiKeys ((QUOTA_COSTS endpoint).getD 1)
        (rotationOrder s.currentKeyIndex s.apiKeys.length) none).1 := by
  rw [fetchYouTubeAPI_go env endpoint h]
  exact (fetchGo_eq_ctl env ((QUOTA_COSTS endpoint).getD 1)
    (rotationOrder s.currentKeyIndex s.apiKeys.length) s s none rfl (fun _ _ => rfl)
    (rotationOrder_nodup s.currentKeyIndex s.apiKeys.length)).1

theorem fetchYouTubeAPI_attempts_ctl (env : Nat → AttemptOutcome β) {s : RouterState}
    (endpoint : String) (h : s.apiKeys.length ≠ 0) :
    (fetchYouTubeAPI env s endpoint).attempts =
      (fetchGoCtl env s.apiKeys ((QUOTA_COSTS endpoint).getD 1)
        (rotationOrder s.currentKeyIndex s.apiKeys.length) none).2 := by
  rw [fetchYouTubeAPI_go env endpoint h]
  exact (fetchGo_eq_ctl env ((QUOTA_COSTS endpoint).getD 1)
    (rotationOrder s.currentKeyIndex s.apiKeys.length) s s none rfl (fun _ _ => rfl)
    (rotationOrder_nodup s.currentKeyIndex s.apiKeys.length)).2

theorem getTotalDailyUsage_foldl (keys : List ApiKey) (a : Nat) :
    keys.foldl (fun total key => total + key.dailyUsage.getD 0) a =
      a + (keys.map fun key => key.dailyUsage.getD 0).sum := by
  induction keys generalizing a with
  | nil => simp
  | cons k rest ih => simp [List.foldl_cons, ih, Nat.add_assoc]

/-- `getTotalDailyUsage` is literally the sum of all credentials' `dailyUsage`. -/
theorem getTotalDailyUsage_eq_sum (keys : List ApiKey) :
    getTotalDailyUsage keys = (keys.map fun key => key.dailyUsage.getD 0).sum := by
  simpa using getTotalDailyUsage_foldl keys 0

/-! ## Claim theorems: the request router -/

/-- Two fresh `unknown` credentials with zero usage, rotation cursor 0. -/
def twoKeyState : RouterState :=
  { apiKeys := [{ value := "keyA", status := KeyStatus.unknown, dailyUsage := some 0 },
                { value := "keyB", status := KeyStatus.unknown, dailyUsage := some 0 }],
    currentKeyIndex := 0, sessionQuotaUsed := 0 }

/-- Network where the attempt with key 0 gets HTTP 500 with a non-credential
reason (`backendError`, not a quota code, status neither 403 nor 429) and the
attempt with key 1 succeeds. -/
def hardErrorEnv : Nat → AttemptOutcome Nat := fun i =>
  if i = 0 then AttemptOutcome.httpError 500 (some "backendError") (some "Backend Error")
  else AttemptOutcome.success 42

/-- C1: evaluation of the code at the failing input of the claim.  The first
attempt's failure is a hard API error by the code's own classification
(`isKeyRelatedError` is false), yet the call goes on to attempt credential 1
and returns its success instead of raising the hard error immediately: the
`throw lastError` for this case is intercepted by the enclosing catch clause,
which continues the rotation. -/
theorem hard_api_error_still_rotates :
    isKeyRelatedError 500 (some "backendError") = false ∧
    (fetchYouTubeAPI hardErrorEnv twoKeyState "videos").outcome = FetchOutcome.ok 1 42 ∧
    (fetchYouTubeAPI hardErrorEnv twoKeyState "videos").attempts = [0, 1] := by
  refine ⟨by decide, ?_, ?_⟩ <;> rfl

/-- C2: with a non-empty pool, `fetchYouTubeAPI` either returns a parsed
success or raises only after attempting every eligible (non-skipped)
credential exactly once (every eligible index is attempted, the attempt list
has no duplicates and contains only eligible indices), and the aggregate
error message embeds the last observed underlying error's message; with an
empty pool it fails immediately with the configuration error without
attempting any credential. -/
theorem call_success_or_exhausts_eligible (env : Nat → AttemptOutcome β)
    (s : RouterState) (endpoint : String) :
    (s.apiKeys = [] →
      (fetchYouTubeAPI env s endpoint).outcome =
        FetchOutcome.err "Please configure at least one YouTube Data API key in Settings." ∧
      (fetchYouTubeAPI env s endpoint).attempts = []) ∧
    (∀ m, s.apiKeys ≠ [] →
      (fetchYouTubeAPI env s endpoint).outcome = FetchOutcome.err m →
      (∀ j, j < s.apiKeys.length →
        (∀ k, s.apiKeys[j]? = some k →
          shouldSkip s.apiKeys.length k ((QUOTA_COSTS endpoint).getD 1) = false) →
        j ∈ (fetchYouTubeAPI env s endpoint).attempts) ∧
      (fetchYouTubeAPI env s endpoint).attempts.Nodup ∧
      (∀ j ∈ (fetchYouTubeAPI env s endpoint).attempts,
        ∃ k, s.apiKeys[j]? = some k ∧
          shouldSkip s.apiKeys.length k ((QUOTA_COSTS endpoint).getD 1) = false) ∧
      m = aggregateMessage (lastObserved env (fetchYouTubeAPI env s endpoint).attempts none)) := by
  constructor
  · intro h
    rw [fetchYouTubeAPI_empty env endpoint (by simp [h])]
    exact ⟨rfl, rfl⟩
  · intro m hne hm
    have hlen : s.apiKeys.length ≠ 0 := by simpa using hne
    have hout := fetchYouTubeAPI_outcome_ctl env endpoint hlen
    have hatt := fetchYouTubeAPI_attempts_ctl env endpoint hlen
    have herr1 : (fetchGoCtl env s.apiKeys ((QUOTA_COSTS endpoint).getD 1)
        (rotationOrder s.currentKeyIndex s.apiKeys.length) none).1 = FetchOutcome.err m :=
      hout.symm.trans hm
    refine ⟨?_, ?_, ?_, ?_⟩
    · intro j hj helig
      rw [hatt]
      have hjk : s.apiKeys[j]? = some s.apiKeys[j] := List.getElem?_eq_getElem hj
      exact fetchGoCtl_err_all_eligible_attempted env s.apiKeys
        ((QUOTA_COSTS endpoint).getD 1) (rotationOrder s.currentKeyIndex s.apiKeys.length)
        none m herr1 j (rotationOrder_mem_of_lt s.currentKeyIndex hj)
        s.apiKeys[j] hjk (helig _ hjk)
    · rw [hatt]
      exact (fetchGoCtl_attempts_sublist env s.apiKeys _ _ none).nodup
        (rotationOrder_nodup s.currentKeyIndex s.apiKeys.length)
    · intro j hj
      rw [hatt] at hj
      exact fetchGoCtl_attempts_eligible env s.apiKeys _ _ none j hj
    · rw [hatt]
      exact fetchGoCtl_err_message env s.apiKeys _ _ none m herr1

/-- Witness for C2: a two-key pool where every attempt fails by transport
error is exhausted; both keys are attempted exactly once and the aggregate
message embeds the last attempt's message. -/
theorem call_success_or_exhausts_eligible_witness :
    (fetchYouTubeAPI (fun i => AttemptOutcome.transport (toString i ++ " down") (β := Nat))
        twoKeyState "videos").outcome =
      FetchOutcome.err "API Request failed after trying all keys: 1 down" ∧
    (fetchYouTubeAPI (fun i => AttemptOutcome.transport (toString i ++ " down") (β := Nat))
        twoKeyState "videos").attempts = [0, 1] ∧
    (0 ∈ (fetchYouTubeAPI (fun i => AttemptOutcome.transport (toString i ++ " down") (β := Nat))
        twoKeyState "videos").attempts ∧
     (fetchYouTubeAPI (fun i => AttemptOutcome.transport (toString i ++ " down") (β := Nat))
        twoKeyState "videos").attempts.Nodup) := by
  have hout : (fetchYouTubeAPI (fun i => AttemptOutcome.transport (toString i ++ " down") (β := Nat))
      twoKeyState "videos").outcome =
        FetchOutcome.err "API Request failed after trying all keys: 1 down" := by rfl
  have h := (call_success_or_exhausts_eligible
      (fun i => AttemptOutcome.transport (toString i ++ " down") (β := Nat))
      twoKeyState "videos").2
      "API Request failed after trying all keys: 1 down" (by decide) hout
  refine ⟨hout, by rfl, h.1 0 (by decide) ?_, h.2.1⟩
  intro k hk
  have : k = { value := "keyA", status := KeyStatus.unknown, dailyUsage := some 0 } := by
    have h2 := hk
    simp only [twoKeyState] at h2
    exact (Option.some_inj.mp h2).symm
  subst this
  decide

theorem shouldSkip_of_one (k : ApiKey) (cost : Nat) : shouldSkip 1 k cost = false := by
  simp [shouldSkip]

/-- C3: with more than one credential in the pool, the call never attempts a
credential whose status is `invalid` or `quota_exceeded`, nor one whose
`dailyUsage + cost` would exceed the 10,000-unit daily cap; with exactly one
credential, that credential is attempted unconditionally (the attempt list is
exactly `[0]` whatever its status and usage). -/
theorem skip_policy_and_lone_credential_exemption (env : Nat → AttemptOutcome β)
    (s : RouterState) (endpoint : String) :
    (1 < s.apiKeys.length →
      ∀ j k, s.apiKeys[j]? = some k →
        (k.status = KeyStatus.invalid ∨ k.status = KeyStatus.quota_exceeded ∨
          10000 < k.dailyUsage.getD 0 + (QUOTA_COSTS endpoint).getD 1) →
        j ∉ (fetchYouTubeAPI env s endpoint).attempts) ∧
    (s.apiKeys.length = 1 → (fetchYouTubeAPI env s endpoint).attempts = [0]) := by
  constructor
  · intro hlen j k hk hbad hmem
    rw [fetchYouTubeAPI_attempts_ctl env endpoint (by omega)] at hmem
    obtain ⟨k', hk', hskip⟩ := fetchGoCtl_attempts_eligible env s.apiKeys _ _ none j hmem
    rw [hk] at hk'
    cases hk'
    have : shouldSkip s.apiKeys.length k ((QUOTA_COSTS endpoint).getD 1) = true := by
      rcases hbad with hb | hb | hb <;>
        simp [shouldSkip, hb, hlen]
    rw [this] at hskip
    exact absurd hskip (by simp)
  · intro hlen
    rw [fetchYouTubeAPI_attempts_ctl env endpoint (by omega), hlen, rotationOrder_one]
    have h0 : 0 < s.apiKeys.length := by omega
    have hk : s.apiKeys[0]? = some s.apiKeys[0] := List.getElem?_eq_getElem h0
    have hskip : shouldSkip s.apiKeys.length s.apiKeys[0] ((QUOTA_COSTS endpoint).getD 1) = false := by
      rw [hlen]; exact shouldSkip_of_one _ _
    cases hobs : observedError (env 0) with
    | none =>
        cases henv : env 0 with
        | success body => rw [fetchGoCtl_cons_success [] none hk hskip henv]
        | successBadBody mm => rw [henv] at hobs; simp [observedError] at hobs
        | httpError status reason message => rw [henv] at hobs; simp [observedError] at hobs
        | transport mm => rw [henv] at hobs; simp [observedError] at hobs
    | some me => rw [fetchGoCtl_cons_fail [] none hk hskip hobs, fetchGoCtl_nil]

/-- Witness for C3: with two keys where key 0 is `invalid` and key 1 succeeds,
key 0 is not attempted; and a lone `invalid` key is still attempted. -/
theorem skip_policy_and_lone_credential_exemption_witness :
    0 ∉ (fetchYouTubeAPI (fun _ => AttemptOutcome.success 1 (β := Nat))
        { apiKeys := [{ value := "keyA", status := KeyStatus.invalid, dailyUsage := some 0 },
                      { value := "keyB", status := KeyStatus.unknown, dailyUsage := some 0 }],
          currentKeyIndex := 0, sessionQuotaUsed := 0 } "videos").attempts ∧
    (fetchYouTubeAPI (fun _ => AttemptOutcome.success 1 (β := Nat))
        { apiKeys := [{ value := "keyA", status := KeyStatus.invalid, dailyUsage := some 0 }],
          currentKeyIndex := 0, sessionQuotaUsed := 0 } "videos").attempts = [0] := by
  constructor
  · exact (skip_policy_and_lone_credential_exemption (fun _ => AttemptOutcome.success 1 (β := Nat))
      { apiKeys := [{ value := "keyA", status := KeyStatus.invalid, dailyUsage := some 0 },
                    { value := "keyB", status := KeyStatus.unknown, dailyUsage := some 0 }],
        currentKeyIndex := 0, sessionQuotaUsed := 0 } "videos").1 (by decide) 0
      { value := "keyA", status := KeyStatus.invalid, dailyUsage := some 0 } (by decide)
      (Or.inl rfl)
  · exact (skip_policy_and_lone_credential_exemption (fun _ => AttemptOutcome.success 1 (β := Nat))
      { apiKeys := [{ value := "keyA", status := KeyStatus.invalid, dailyUsage := some 0 }],
        currentKeyIndex := 0, sessionQuotaUsed := 0 } "videos").2 (by decide)

theorem usageAt_congr {keys keys' : List ApiKey} {j : Nat}
    (h : keys[j]? = keys'[j]?) : usageAt keys j = usageAt keys' j := by
  unfold usageAt
  rw [h]

/-- State accounting of the threaded loop on a successful call: the winner is
charged exactly `cost` once; every attempted key whose ok response's body
failed to parse (`isBadBody`) was also charged exactly `cost`; nothing else
changed; the session total grew by `cost` per charge; the cursor ends at the
winner; and the last quota notification carries the final session total and
the recomputed daily sum. -/
theorem fetchGo_ok_state (env : Nat → AttemptOutcome β) (cost : Nat) :
    ∀ (l : List Nat), l.Nodup → ∀ (s : RouterState) (le : Option String) (i : Nat) (b : β),
      (fetchGo env cost l s le).outcome = FetchOutcome.ok i b →
      env i = AttemptOutcome.success b ∧
      (fetchGo env cost l s le).attempts.Sublist l ∧
      i ∈ (fetchGo env cost l s le).attempts ∧
      (fetchGo env cost l s le).state.currentKeyIndex = i ∧
      (fetchGo env cost l s le).state.apiKeys.length = s.apiKeys.length ∧
      (fetchGo env cost l s le).state.sessionQuotaUsed =
        s.sessionQuotaUsed +
          cost * (((fetchGo env cost l s le).attempts.filter
            fun j => isBadBody (env j)).length + 1) ∧
      usageAt (fetchGo env cost l s le).state.apiKeys i = usageAt s.apiKeys i + cost ∧
      (∀ j ∈ (fetchGo env cost l s le).attempts.filter (fun j => isBadBody (env j)),
        usageAt (fetchGo env cost l s le).state.apiKeys j = usageAt s.apiKeys j + cost) ∧
      (∀ j, j ≠ i →
        j ∉ (fetchGo env cost l s le).attempts.filter (fun j => isBadBody (env j)) →
        (fetchGo env cost l s le).state.apiKeys[j]? = s.apiKeys[j]?) ∧
      (fetchGo env cost l s le).quotaNotifications.getLast? =
        some ((fetchGo env cost l s le).state.sessionQuotaUsed,
          getTotalDailyUsage (fetchGo env cost l s le).state.apiKeys) := by
  intro l
  induction l with
  | nil =>
      intro _ s le i b hok
      rw [fetchGo_nil] at hok
      exact absurd hok (by simp)
  | cons j0 rest ih =>
      intro hnd s le i b hok
      have hndr : rest.Nodup := (List.nodup_cons.mp hnd).2
      have hjr : j0 ∉ rest := (List.nodup_cons.mp hnd).1
      cases hkey : s.apiKeys[j0]? with
      | none =>
          rw [fetchGo_cons_oob env cost rest le hkey] at hok ⊢
          obtain ⟨h1, h2, h3, h4, h5, h6, h7, h8, h9, h10⟩ := ih hndr s le i b hok
          exact ⟨h1, h2.cons j0, h3, h4, h5, h6, h7, h8, h9, h10⟩
      | some k =>
          by_cases hskip : shouldSkip s.apiKeys.length k cost = true
          · rw [fetchGo_cons_skip env rest le hkey hskip] at hok ⊢
            obtain ⟨h1, h2, h3, h4, h5, h6, h7, h8, h9, h10⟩ := ih hndr s le i b hok
            exact ⟨h1, h2.cons j0, h3, h4, h5, h6, h7, h8, h9, h10⟩
          · replace hskip := Bool.not_eq_true _ ▸ hskip
            have hj0lt : j0 < s.apiKeys.length :=
              (List.getElem?_eq_some_iff.mp hkey).1
            cases henv : env j0 with
            | success b0 =>
                rw [fetchGo_cons_success rest le hkey hskip henv] at hok ⊢
                simp only [FetchOutcome.ok.injEq] at hok
                obtain ⟨rfl, rfl⟩ := hok
                dsimp only
                refine ⟨henv, by simp, by simp, chargeKey_cursor s j0 cost,
                  chargeKey_len cost hkey, ?_, chargeKey_usage cost hkey hj0lt, ?_, ?_, ?_⟩
                · rw [chargeKey_sess cost hkey]
                  simp [henv, isBadBody]
                · simp [henv, isBadBody]
                · intro j hj _
                  exact chargeKey_ne cost hkey hj
                · exact chargeKey_notifs cost hkey
            | successBadBody m0 =>
                rw [fetchGo_cons_badBody rest le hkey hskip henv] at hok ⊢
                dsimp only at hok ⊢
                obtain ⟨h1, h2, h3, h4, h5, h6, h7, h8, h9, h10⟩ :=
                  ih hndr (chargeKey s j0 cost).1 (some m0) i b hok
                have hir : i ∈ rest := h2.mem h3
                have hij0 : i ≠ j0 := fun hc => hjr (hc ▸ hir)
                have hbadf : (fun j => isBadBody (env j)) j0 = true := by
                  simp [henv, isBadBody]
                rw [List.filter_cons_of_pos (p := fun j => isBadBody (env j)) (a := j0) hbadf]
                have hnotbad0 : j0 ∉ ((fetchGo env cost rest (chargeKey s j0 cost).1
                    (some m0)).attempts).filter (fun x => isBadBody (env x)) := by
                  intro hc
                  exact hjr (h2.mem (List.mem_of_mem_filter hc))
                refine ⟨h1, h2.cons₂ j0, List.mem_cons_of_mem j0 h3, h4, ?_, ?_, ?_, ?_, ?_, ?_⟩
                · rw [h5, chargeKey_len cost hkey]
                · rw [h6, chargeKey_sess cost hkey]
                  simp only [List.length_cons]
                  ring
                · rw [h7, usageAt_congr (chargeKey_ne cost hkey hij0)]
                · intro j hj
                  rcases List.mem_cons.mp hj with hje | hjf
                  · rw [hje, usageAt_congr (h9 j0 hij0.symm hnotbad0)]
                    exact chargeKey_usage cost hkey hj0lt
                  · have hjrest : j ∈ rest := h2.mem (List.mem_of_mem_filter hjf)
                    have hjj0 : j ≠ j0 := fun hc => hjr (hc ▸ hjrest)
                    rw [h8 j hjf, usageAt_congr (chargeKey_ne cost hkey hjj0)]
                · intro j hj hjnot
                  have hjj0 : j ≠ j0 := fun hc => by
                    rw [hc] at hjnot
                    exact hjnot (List.mem_cons_self j0 _)
                  have hjnot' : j ∉ ((fetchGo env cost rest (chargeKey s j0 cost).1
                      (some m0)).attempts).filter (fun x => isBadBody (env x)) := by
                    intro hc
                    exact hjnot (List.mem_cons_of_mem j0 hc)
                  rw [h9 j hj hjnot', chargeKey_ne cost hkey hjj0]
                · rw [List.getLast?_append, h10]
                  rfl
            | httpError status reason message =>
                have hobs : observedError (env j0) = some (httpErrorMessage status message) := by
                  rw [henv]; rfl
                have hbad : isBadBody (env j0) = false := by rw [henv]; rfl
                rw [fetchGo_cons_stateless_fail rest le hkey hskip hobs hbad] at hok ⊢
                dsimp only at hok ⊢
                obtain ⟨h1, h2, h3, h4, h5, h6, h7, h8, h9, h10⟩ :=
                  ih hndr s (some (httpErrorMessage status message)) i b hok
                have hbadf : ¬ ((fun j => isBadBody (env j)) j0 = true) := by
                  simp [henv, isBadBody]
                rw [List.filter_cons_of_neg (p := fun j => isBadBody (env j)) (a := j0) hbadf]
                exact ⟨h1, h2.cons₂ j0, List.mem_cons_of_mem j0 h3, h4, h5, h6, h7, h8, h9, h10⟩
            | transport m0 =>
                have hobs : observedError (env j0) = some m0 := by rw [henv]; rfl
                have hbad : isBadBody (env j0) = false := by rw [henv]; rfl
                rw [fetchGo_cons_stateless_fail rest le hkey hskip hobs hbad] at hok ⊢
                dsimp only at hok ⊢
                obtain ⟨h1, h2, h3, h4, h5, h6, h7, h8, h9, h10⟩ :=
                  ih hndr s (some m0) i b hok
                have hbadf : ¬ ((fun j => isBadBody (env j)) j0 = true) := by
                  simp [henv, isBadBody]
                rw [List.filter_cons_of_neg (p := fun j => isBadBody (env j)) (a := j0) hbadf]
                exact ⟨h1, h2.cons₂ j0, List.mem_cons_of_mem j0 h3, h4, h5, h6, h7, h8, h9, h10⟩

/-- Network where the attempt with key 0 gets an ok response whose body then
fails to parse, and the attempt with key 1 succeeds. -/
def badBodyEnv : Nat → AttemptOutcome Nat := fun i =>
  if i = 0 then AttemptOutcome.successBadBody "Unexpected end of JSON input"
  else AttemptOutcome.success 42

/-- C4 counterexample: on `twoKeyState` (two fresh keys, zero usage and zero
session total) under `badBodyEnv`, the call is successful with winning
credential 1 at cost 1, yet the session-total rises to 2 — not by exactly the
call's cost 1 — and credential 0, which did not win, has its `dailyUsage`
changed as well: credential 0's ok response was charged by `updateKeyUsage`
and the cursor moved (source lines 112-113) before its body failed to parse
(line 116), after which the rotation continued.  This falsifies the claim's
"session-total increases by exactly C" and "the other credentials'
dailyUsage values are unchanged" for a successful call. -/
theorem successful_call_overcharges_on_bad_body :
    (fetchYouTubeAPI badBodyEnv twoKeyState "videos").outcome = FetchOutcome.ok 1 42 ∧
    (fetchYouTubeAPI badBodyEnv twoKeyState "videos").state.sessionQuotaUsed = 2 ∧
    ¬ ((fetchYouTubeAPI badBodyEnv twoKeyState "videos").state.sessionQuotaUsed =
        twoKeyState.sessionQuotaUsed + (QUOTA_COSTS "videos").getD 1) ∧
    (fetchYouTubeAPI badBodyEnv twoKeyState "videos").state.apiKeys[0]? ≠
      twoKeyState.apiKeys[0]? := by
  exact ⟨rfl, rfl, by decide, by decide⟩

/-- C4 as amended: after every successful call whose operation costs `C` and
whose winning credential is at index `i`, credential `i`'s `dailyUsage`
increases by exactly `C`; the session-total increases by `C·(k+1)`, where `k`
is the number of attempted credentials whose ok response's body failed to
parse during the rotation — each such credential (never the winner) also has
its `dailyUsage` increased by exactly `C`, having been charged before the
rotation continued; every credential that neither won nor was so charged is
unchanged; and the last `{session, daily}` pair reported to the quota-change
observer carries the final session total and the sum of all credentials'
`dailyUsage`.  When no ok-but-unparsable response occurs (`k = 0`) this is
the original claim. -/
theorem successful_call_quota_accounting (env : Nat → AttemptOutcome β)
    (s : RouterState) (endpoint : String) (i : Nat) (b : β)
    (h : (fetchYouTubeAPI env s endpoint).outcome = FetchOutcome.ok i b) :
    usageAt (fetchYouTubeAPI env s endpoint).state.apiKeys i =
      usageAt s.apiKeys i + (QUOTA_COSTS endpoint).getD 1 ∧
    (fetchYouTubeAPI env s endpoint).state.sessionQuotaUsed =
      s.sessionQuotaUsed + (QUOTA_COSTS endpoint).getD 1 *
        (((fetchYouTubeAPI env s endpoint).attempts.filter
          fun j => isBadBody (env j)).length + 1) ∧
    (∀ j ∈ (fetchYouTubeAPI env s endpoint).attempts.filter (fun j => isBadBody (env j)),
      j ≠ i ∧
      usageAt (fetchYouTubeAPI env s endpoint).state.apiKeys j =
        usageAt s.apiKeys j + (QUOTA_COSTS endpoint).getD 1) ∧
    (∀ j, j ≠ i →
      j ∉ (fetchYouTubeAPI env s endpoint).attempts.filter (fun j => isBadBody (env j)) →
      (fetchYouTubeAPI env s endpoint).state.apiKeys[j]? = s.apiKeys[j]?) ∧
    (fetchYouTubeAPI env s endpoint).quotaNotifications.getLast? =
      some ((fetchYouTubeAPI env s endpoint).state.sessionQuotaUsed,
        ((fetchYouTubeAPI env s endpoint).state.apiKeys.map
          fun key => key.dailyUsage.getD 0).sum) := by
  have hlen : s.apiKeys.length ≠ 0 := by
    intro hz
    rw [fetchYouTubeAPI_empty env endpoint hz] at h
    exact absurd h (by simp)
  rw [fetchYouTubeAPI_go env endpoint hlen] at h ⊢
  obtain ⟨h1, _h2, _h3, _h4, _h5, h6, h7, h8, h9, h10⟩ :=
    fetchGo_ok_state env ((QUOTA_COSTS endpoint).getD 1)
      (rotationOrder s.currentKeyIndex s.apiKeys.length)
      (rotationOrder_nodup s.currentKeyIndex s.apiKeys.length) s none i b h
  refine ⟨h7, h6, ?_, h9, ?_⟩
  · intro j hj
    have hbadj : isBadBody (env j) = true := (List.of_mem_filter hj : _)
    have hji : j ≠ i := by
      intro hc
      rw [hc, h1] at hbadj
      exact absurd hbadj (by simp [isBadBody])
    exact ⟨hji, h8 j hj⟩
  · rw [h10, ← getTotalDailyUsage_eq_sum]

/-- Witness for the amended C4: under `badBodyEnv` the call on `twoKeyState`
is won by credential 1; credential 1's usage rises by 1, the session total by
1·(1+1) = 2 (one bad-body charge at credential 0 plus the winner), credential
0's usage also rises by 1, untouched indices are unchanged, and the last
observer notification carries the final session total and daily sum. -/
theorem successful_call_quota_accounting_witness :
    usageAt (fetchYouTubeAPI badBodyEnv twoKeyState "videos").state.apiKeys 1 =
      usageAt twoKeyState.apiKeys 1 + (QUOTA_COSTS "videos").getD 1 ∧
    (fetchYouTubeAPI badBodyEnv twoKeyState "videos").state.sessionQuotaUsed =
      twoKeyState.sessionQuotaUsed + (QUOTA_COSTS "videos").getD 1 *
        (((fetchYouTubeAPI badBodyEnv twoKeyState "videos").attempts.filter
          fun j => isBadBody (badBodyEnv j)).length + 1) ∧
    (0 ≠ 1 ∧
      usageAt (fetchYouTubeAPI badBodyEnv twoKeyState "videos").state.apiKeys 0 =
        usageAt twoKeyState.apiKeys 0 + (QUOTA_COSTS "videos").getD 1) ∧
    (fetchYouTubeAPI badBodyEnv twoKeyState "videos").state.apiKeys[3]? =
      twoKeyState.apiKeys[3]? ∧
    (fetchYouTubeAPI badBodyEnv twoKeyState "videos").quotaNotifications.getLast? =
      some ((fetchYouTubeAPI badBodyEnv twoKeyState "videos").state.sessionQuotaUsed,
        ((fetchYouTubeAPI badBodyEnv twoKeyState "videos").state.apiKeys.map
          fun key => key.dailyUsage.getD 0).sum) := by
  have h := successful_call_quota_accounting badBodyEnv twoKeyState "videos" 1 42 (by rfl)
  exact ⟨h.1, h.2.1, h.2.2.1 0 (by decide), h.2.2.2.1 3 (by decide) (by decide), h.2.2.2.2⟩

/-! ## Claim theorems: the credential pool -/

/-- C5 counterexample: the claim says a retained value's accumulated usage is
always preserved and a brand-new value always starts at 0.  With previous
pool `[a: 100]` and new list `[a: 5, b: 7]` (incoming entries that carry their
own `dailyUsage`), the code keeps the incoming values `[5, 7]`, not
`[100, 0]`: `newKey.dailyUsage ?? existing.dailyUsage ?? 0` lets an incoming
`dailyUsage` win over the previously accumulated one. -/
theorem setApiKeys_incoming_usage_wins :
    ((setApiKeys { apiKeys := [{ value := "a", status := KeyStatus.valid, dailyUsage := some 100 }],
                   currentKeyIndex := 0, sessionQuotaUsed := 0 }
        [{ value := "a", status := KeyStatus.unknown, dailyUsage := some 5 },
         { value := "b", status := KeyStatus.unknown, dailyUsage := some 7 }]).1.apiKeys.map
      ApiKey.dailyUsage) = [some 5, some 7] ∧
    ¬ ((setApiKeys { apiKeys := [{ value := "a", status := KeyStatus.valid, dailyUsage := some 100 }],
                     currentKeyIndex := 0, sessionQuotaUsed := 0 }
        [{ value := "a", status := KeyStatus.unknown, dailyUsage := some 5 },
         { value := "b", status := KeyStatus.unknown, dailyUsage := some 7 }]).1.apiKeys.map
      ApiKey.dailyUsage) = [some 100, some 0] := by
  constructor
  · rfl
  · intro hcontra
    exact absurd (by rfl : ((setApiKeys
        { apiKeys := [{ value := "a", status := KeyStatus.valid, dailyUsage := some 100 }],
          currentKeyIndex := 0, sessionQuotaUsed := 0 }
        [{ value := "a", status := KeyStatus.unknown, dailyUsage := some 5 },
         { value := "b", status := KeyStatus.unknown, dailyUsage := some 7 }]).1.apiKeys.map
      ApiKey.dailyUsage) = [some 5, some 7]) (by rw [hcontra]; decide)

/-- The daily usage `setApiKeys` assigns to one incoming entry: the entry's
own `dailyUsage` when it carries one; otherwise the previously accumulated
usage of the credential with the same value (0 when its usage is undefined);
otherwise 0. -/
def mergedDailyUsage (oldKeys : List ApiKey) (k : ApiKey) : Nat :=
  match k.dailyUsage with
  | some u => u
  | none =>
      match oldKeys.find? (fun q => q.value == k.value) with
      | some existing => existing.dailyUsage.getD 0
      | none => 0

theorem setApiKeysMerge_getElem (oldKeys : List ApiKey) {keys : List ApiKey} {j : Nat}
    {k : ApiKey} (hk : keys[j]? = some k) :
    (setApiKeysMerge oldKeys keys)[j]? =
      some { k with dailyUsage := some (mergedDailyUsage oldKeys k) } := by
  simp only [setApiKeysMerge, List.getElem?_map, hk, Option.map_some']
  cases hf : oldKeys.find? (fun q => q.value == k.value) <;>
    cases hd : k.dailyUsage <;>
      simp [mergedDailyUsage, hf, hd, Option.orElse]

/-- C5 as amended: `setApiKeys` replaces the working set value-for-value; an
entry's resulting `dailyUsage` is its own incoming value when present,
otherwise the previously accumulated value of the matching credential,
otherwise 0 (so preservation of accumulated usage holds only for incoming
entries that carry no `dailyUsage` of their own); the rotation cursor resets
to 0 exactly when it is out of bounds for the new list, and the quota
observer is notified with the unchanged session total and the recomputed
daily sum. -/
theorem setApiKeys_replaces_preserving_usage (s : RouterState) (keys : List ApiKey) :
    ((setApiKeys s keys).1.apiKeys.map ApiKey.value = keys.map ApiKey.value) ∧
    (∀ (j : Nat) (k : ApiKey), keys[j]? = some k →
      (setApiKeys s keys).1.apiKeys[j]? =
        some { k with dailyUsage := some (mergedDailyUsage s.apiKeys k) }) ∧
    ((setApiKeys s keys).1.currentKeyIndex =
      if s.currentKeyIndex ≥ keys.length then 0 else s.currentKeyIndex) ∧
    ((setApiKeys s keys).2 =
      (s.sessionQuotaUsed, getTotalDailyUsage (setApiKeys s keys).1.apiKeys)) := by
  refine ⟨?_, ?_, ?_, rfl⟩
  · simp only [setApiKeys, setApiKeysMerge, List.map_map]
    apply List.map_congr_left
    intro k _
    cases hf : s.apiKeys.find? (fun q => q.value == k.value) <;> simp [hf]
  · intro j k hk
    exact setApiKeysMerge_getElem s.apiKeys hk
  · have hlen : (setApiKeysMerge s.apiKeys keys).length = keys.length := by
      simp [setApiKeysMerge]
    simp [setApiKeys, hlen]

/-- Witness for the amended C5: replacing `[a: 100 used]` by `[a (no usage
field), c (no usage field)]` keeps a's 100, starts c at 0, and resets the
out-of-bounds cursor 5 to 0. -/
theorem setApiKeys_replaces_preserving_usage_witness :
    (setApiKeys { apiKeys := [{ value := "a", status := KeyStatus.valid, dailyUsage := some 100 }],
                  currentKeyIndex := 5, sessionQuotaUsed := 3 }
        [{ value := "a", status := KeyStatus.unknown, dailyUsage := none },
         { value := "c", status := KeyStatus.unknown, dailyUsage := none }]).1.apiKeys[0]? =
      some { value := "a", status := KeyStatus.unknown, dailyUsage := some 100 } ∧
    (setApiKeys { apiKeys := [{ value := "a", status := KeyStatus.valid, dailyUsage := some 100 }],
                  currentKeyIndex := 5, sessionQuotaUsed := 3 }
        [{ value := "a", status := KeyStatus.unknown, dailyUsage := none },
         { value := "c", status := KeyStatus.unknown, dailyUsage := none }]).1.apiKeys[1]? =
      some { value := "c", status := KeyStatus.unknown, dailyUsage := some 0 } ∧
    (setApiKeys { apiKeys := [{ value := "a", status := KeyStatus.valid, dailyUsage := some 100 }],
                  currentKeyIndex := 5, sessionQuotaUsed := 3 }
        [{ value := "a", status := KeyStatus.unknown, dailyUsage := none },
         { value := "c", status := KeyStatus.unknown, dailyUsage := none }]).1.currentKeyIndex = 0 := by
  have h := setApiKeys_replaces_preserving_usage
    { apiKeys := [{ value := "a", status := KeyStatus.valid, dailyUsage := some 100 }],
      currentKeyIndex := 5, sessionQuotaUsed := 3 }
    [{ value := "a", status := KeyStatus.unknown, dailyUsage := none },
     { value := "c", status := KeyStatus.unknown, dailyUsage := none }]
  refine ⟨?_, ?_, ?_⟩
  · rw [h.2.1 0 { value := "a", status := KeyStatus.unknown, dailyUsage := none } (by rfl)]
    rfl
  · rw [h.2.1 1 { value := "c", status := KeyStatus.unknown, dailyUsage := none } (by rfl)]
    rfl
  · rw [h.2.2.1]
    decide

/-! Small reduction lemmas for the `Except` monad, used to unfold the
do-blocks of the aggregate fetchers. -/

theorem except_bind_ok (a : α) (f : α → Except ε β) :
    (Except.ok a >>= f : Except ε β) = f a := rfl

theorem except_bind_error (e : ε) (f : α → Except ε β) :
    ((Except.error e : Except ε α) >>= f) = Except.error e := rfl

theorem except_pure (a : α) : (pure a : Except ε α) = Except.ok a := rfl

/-! ## Claim theorems: `getChannelStats` -/

/-- The metadata call of `getChannelStats` fails or resolves to no metadata:
the `channels` call for the resolved id rejects, or its body has no `items`,
or an empty `items`. -/
def metadataFailed (env : ApiEnv) (resolvedId : String) : Prop :=
  match env.channels [("part", "snippet,statistics,contentDetails"), ("id", resolvedId)] with
  | Except.error _ => True
  | Except.ok data => data.items = none ∨ data.items = some []

theorem getChannelStats_of_metadataFailed (env : ApiEnv) (now channelIdentifier : String)
    (h : metadataFailed env (resolveChannelId env channelIdentifier)) :
    getChannelStats env now channelIdentifier =
      placeholderChannelStats (resolveChannelId env channelIdentifier) now := by
  unfold getChannelStats
  unfold metadataFailed at h
  cases hc : env.channels
      [("part", "snippet,statistics,contentDetails"),
       ("id", resolveChannelId env channelIdentifier)] with
  | error e => simp [getChannelStatsTry, hc, except_bind_error]
  | ok data =>
      rw [hc] at h
      rcases h with hnone | hnil
      · simp [getChannelStatsTry, hc, hnone, except_bind_ok]
      · simp [getChannelStatsTry, hc, hnil, except_bind_ok]

/-- C6: `fetchChannelStats` (`getChannelStats`) is total — failure is encoded
in the returned record, never raised — and whenever the channel-metadata call
fails or resolves to no metadata the result has status `terminated` and all
numeric counters equal to the string "0". -/
theorem getChannelStats_metadata_failure_terminated (env : ApiEnv)
    (now channelIdentifier : String)
    (h : metadataFailed env (resolveChannelId env channelIdentifier)) :
    (getChannelStats env now channelIdentifier).status = ChannelStatus.terminated ∧
    (getChannelStats env now channelIdentifier).subscriberCount = "0" ∧
    (getChannelStats env now channelIdentifier).videoCount = "0" ∧
    (getChannelStats env now channelIdentifier).viewCount = "0" := by
  rw [getChannelStats_of_metadataFailed env now channelIdentifier h]
  exact ⟨rfl, rfl, rfl, rfl⟩

/-- An environment in which every request rejects. -/
def allDownEnv : ApiEnv :=
  { channels := fun _ => Except.error "down"
    search := fun _ => Except.error "down"
    playlistItems := fun _ => Except.error "down"
    videos := fun _ => Except.error "down"
    dateMs := fun _ => 0
    minus12h := fun d => d }

/-- Witness for C6 at a concrete input: with the network down, fetching the
stats of "somehandle" yields the terminated placeholder with zeroed counters. -/
theorem getChannelStats_metadata_failure_terminated_witness :
    (getChannelStats allDownEnv "2026-10-11T00:00:00.000Z" "somehandle").status =
      ChannelStatus.terminated ∧
    (getChannelStats allDownEnv "2026-10-11T00:00:00.000Z" "somehandle").subscriberCount = "0" ∧
    (getChannelStats allDownEnv "2026-10-11T00:00:00.000Z" "somehandle").videoCount = "0" ∧
    (getChannelStats allDownEnv "2026-10-11T00:00:00.000Z" "somehandle").viewCount = "0" := by
  exact getChannelStats_metadata_failure_terminated allDownEnv
    "2026-10-11T00:00:00.000Z" "somehandle" (by trivial)

/-- C10: in the placeholder record returned on metadata failure, `id` is the
resolved identifier when it starts with "UC" and the literal "INVALID_ID"
otherwise, while `title` and `customUrl` always equal the resolved
identifier. -/
theorem getChannelStats_placeholder_id_fields (env : ApiEnv)
    (now channelIdentifier : String)
    (h : metadataFailed env (resolveChannelId env channelIdentifier)) :
    (getChannelStats env now channelIdentifier).id =
      (if strStartsWith (resolveChannelId env channelIdentifier) "UC"
       then resolveChannelId env channelIdentifier else "INVALID_ID") ∧
    (getChannelStats env now channelIdentifier).title =
      resolveChannelId env channelIdentifier ∧
    (getChannelStats env now channelIdentifier).customUrl =
      resolveChannelId env channelIdentifier := by
  rw [getChannelStats_of_metadataFailed env now channelIdentifier h]
  exact ⟨rfl, rfl, rfl⟩

/-- Witness for C10: "somehandle" resolves to itself when the network is down;
it does not start with "UC", so the placeholder's `id` is "INVALID_ID" (not a
platform channel id) while `title` and `customUrl` are "somehandle". -/
theorem getChannelStats_placeholder_id_fields_witness :
    (getChannelStats allDownEnv "2026-10-11T00:00:00.000Z" "somehandle").id = "INVALID_ID" ∧
    (getChannelStats allDownEnv "2026-10-11T00:00:00.000Z" "somehandle").title = "somehandle" ∧
    (getChannelStats allDownEnv "2026-10-11T00:00:00.000Z" "somehandle").customUrl =
      "somehandle" := by
  have h := getChannelStats_placeholder_id_fields allDownEnv
    "2026-10-11T00:00:00.000Z" "somehandle" (by trivial)
  refine ⟨?_, h.2.1, h.2.2⟩
  rw [h.1]
  decide

/-! ## Claim theorems: `validateYouTubeApiKey` -/

/-- C9 counterexample: the code's message for an empty credential is
"Key cannot be empty." (with a trailing period), so the claim's quoted
message "Key cannot be empty" is not what `validate("")` returns. -/
theorem validate_empty_message_not_as_claimed :
    (validateYouTubeApiKey ProbeOutcome.ok "").1 =
      { status := KeyStatus.invalid, error := some "Key cannot be empty." } ∧
    (validateYouTubeApiKey ProbeOutcome.ok "").1.error ≠ some "Key cannot be empty" := by
  exact ⟨rfl, by decide⟩

/-- C9 as amended: an empty or blank credential yields status `invalid` with
the non-empty error message "Key cannot be empty." (trailing period) and no
network call is issued; for a non-blank credential whose probe throws a
transport exception, the exception is caught and reported as `invalid`
carrying the exception's message (validation is total: it never propagates
the exception). -/
theorem validate_blank_and_transport (probe : ProbeOutcome) (key : String) :
    (key = "" ∨ jsTrim key = "" →
      validateYouTubeApiKey probe key =
        ({ status := KeyStatus.invalid, error := some "Key cannot be empty." }, false) ∧
      "Key cannot be empty." ≠ "") ∧
    (¬ (key = "" ∨ jsTrim key = "") →
      ∀ m, probe = ProbeOutcome.transport m →
        validateYouTubeApiKey probe key =
          ({ status := KeyStatus.invalid, error := some m }, true)) := by
  constructor
  · intro h
    refine ⟨?_, by decide⟩
    simp [validateYouTubeApiKey, h]
  · intro h m hm
    subst hm
    simp [validateYouTubeApiKey, h]

/-- Witness for the amended C9: `validate("")` and `validate(" ")` are
`invalid`/"Key cannot be empty." without a network call; a transport failure
on "AIzaKey" is caught and reported with its message. -/
theorem validate_blank_and_transport_witness :
    validateYouTubeApiKey ProbeOutcome.ok "" =
      ({ status := KeyStatus.invalid, error := some "Key cannot be empty." }, false) ∧
    validateYouTubeApiKey ProbeOutcome.ok " " =
      ({ status := KeyStatus.invalid, error := some "Key cannot be empty." }, false) ∧
    validateYouTubeApiKey (ProbeOutcome.transport "Failed to fetch") "AIzaKey" =
      ({ status := KeyStatus.invalid, error := some "Failed to fetch" }, true) := by
  refine ⟨((validate_blank_and_transport ProbeOutcome.ok "").1 (Or.inl rfl)).1,
    ((validate_blank_and_transport ProbeOutcome.ok " ").1 (Or.inr (by decide))).1,
    (validate_blank_and_transport (ProbeOutcome.transport "Failed to fetch") "AIzaKey").2
      ?_ "Failed to fetch" rfl⟩
  intro hc
  rcases hc with hc | hc
  · exact absurd hc (by decide)
  · exact absurd hc (by decide)

/-! ## Claim theorems: `getChannelStatsBatch` -/

theorem chunksOf50Go_nil (fuel : Nat) : chunksOf50Go fuel [] = [] := by
  cases fuel <;> rfl

theorem chunksOf50Go_congr : ∀ (f1 : Nat) (l : List String) (f2 : Nat),
    l.length ≤ f1 → l.length ≤ f2 → chunksOf50Go f1 l = chunksOf50Go f2 l := by
  intro f1
  induction f1 with
  | zero =>
      intro l f2 h1 _
      cases l with
      | nil => rw [chunksOf50Go_nil, chunksOf50Go_nil]
      | cons x xs => simp at h1
  | succ f ih =>
      intro l f2 h1 h2
      cases l with
      | nil => rw [chunksOf50Go_nil, chunksOf50Go_nil]
      | cons x xs =>
          cases f2 with
          | zero => simp at h2
          | succ g =>
              show ((x :: xs).take 50) :: chunksOf50Go f ((x :: xs).drop 50) =
                ((x :: xs).take 50) :: chunksOf50Go g ((x :: xs).drop 50)
              congr 1
              refine ih ((x :: xs).drop 50) g ?_ ?_
              · simp only [List.length_drop, List.length_cons]
                simp only [List.length_cons] at h1
                omega
              · simp only [List.length_drop, List.length_cons]
                simp only [List.length_cons] at h2
                omega

theorem chunksOf50_nil : chunksOf50 [] = [] := rfl

theorem chunksOf50_cons {l : List String} (h : l ≠ []) :
    chunksOf50 l = l.take 50 :: chunksOf50 (l.drop 50) := by
  cases l with
  | nil => exact absurd rfl h
  | cons x xs =>
      show ((x :: xs).take 50) :: chunksOf50Go xs.length ((x :: xs).drop 50) =
        ((x :: xs).take 50) :: chunksOf50 ((x :: xs).drop 50)
      congr 1
      refine chunksOf50Go_congr xs.length _ _ ?_ ?_
      · simp only [List.length_drop, List.length_cons]
        omega
      · exact Nat.le_refl _

theorem chunksOf50_sizes (l : List String) : ∀ c ∈ chunksOf50 l, c.length ≤ 50 := by
  by_cases h : l = []
  · subst h
    simp [chunksOf50_nil]
  · rw [chunksOf50_cons h]
    intro c hc
    rcases List.mem_cons.mp hc with rfl | hc'
    · simpa using List.length_take_le 50 l
    · exact chunksOf50_sizes (l.drop 50) c hc'
termination_by l.length
decreasing_by
  have hl : 0 < l.length := List.length_pos.mpr h
  simp only [List.length_drop]
  omega

theorem chunksOf50_join (l : List String) : (chunksOf50 l).flatten = l := by
  by_cases h : l = []
  · subst h
    simp [chunksOf50_nil]
  · rw [chunksOf50_cons h]
    simp only [List.flatten_cons]
    rw [chunksOf50_join (l.drop 50)]
    exact List.take_append_drop 50 l
termination_by l.length
decreasing_by
  have hl : 0 < l.length := List.length_pos.mpr h
  simp only [List.length_drop]
  omega

theorem chunksOf50_of_len_120 {l : List String} (hlen : l.length = 120) :
    (chunksOf50 l).map List.length = [50, 50, 20] := by
  have h1 : l ≠ [] := by intro h; rw [h] at hlen; simp at hlen
  have hd1 : (l.drop 50).length = 70 := by simp [hlen]
  have h2 : l.drop 50 ≠ [] := by
    intro h; rw [h] at hd1; simp at hd1
  have hd2 : ((l.drop 50).drop 50).length = 20 := by simp [hlen]
  have h3 : (l.drop 50).drop 50 ≠ [] := by
    intro h; rw [h] at hd2; simp at hd2
  have hd3 : (((l.drop 50).drop 50).drop 50).length = 0 := by simp [hlen]
  have h4 : ((l.drop 50).drop 50).drop 50 = [] := List.eq_nil_of_length_eq_zero hd3
  rw [chunksOf50_cons h1, chunksOf50_cons h2, chunksOf50_cons h3, h4, chunksOf50_nil]
  simp [List.length_take, hlen, hd1, hd2]

theorem batch_foldl_eq_join (env : ApiEnv) (cs : List (List String))
    (acc : List BatchChannelStats) :
    cs.foldl (fun results chunk => results ++ batchChunkFetch env chunk) acc =
      acc ++ (cs.map (batchChunkFetch env)).flatten := by
  induction cs generalizing acc with
  | nil => simp
  | cons c rest ih => simp [List.foldl_cons, ih]

/-- C8: `getChannelStatsBatch` partitions its identifiers into consecutive
chunks of at most 50 whose concatenation is the input (for 120 identifiers:
exactly 3 chunked calls of sizes 50/50/20), issues one `channels` call per
chunk, and returns the chunk results concatenated in chunk order, a failed
chunk contributing nothing while the other chunks still contribute. -/
theorem batch_chunking_and_partial_failure (env : ApiEnv) (channelIds : List String) :
    ((getChannelStatsBatch env channelIds).2 = chunksOf50 channelIds) ∧
    (∀ c ∈ (getChannelStatsBatch env channelIds).2, c.length ≤ 50) ∧
    ((getChannelStatsBatch env channelIds).2.flatten = channelIds) ∧
    (channelIds.length = 120 →
      (getChannelStatsBatch env channelIds).2.map List.length = [50, 50, 20]) ∧
    ((getChannelStatsBatch env channelIds).1 =
      ((chunksOf50 channelIds).map (batchChunkFetch env)).flatten) ∧
    (∀ c e, env.channels (batchChunkParams c) = Except.error e →
      batchChunkFetch env c = []) := by
  refine ⟨rfl, chunksOf50_sizes channelIds, chunksOf50_join channelIds,
    fun h => chunksOf50_of_len_120 h, ?_, ?_⟩
  · simpa using batch_foldl_eq_join env (chunksOf50 channelIds) []
  · intro c e he
    simp [batchChunkFetch, he]

/-- A concrete `channels` item used by the batch witness. -/
def sampleChannelItem : ChannelItem :=
  { id := "UCx"
    snippet := { title := "T", description := "D", customUrl := some "c",
                 publishedAt := "P", thumbnailsHighUrl := some "H",
                 thumbnailsDefaultUrl := "DF" }
    statistics := { subscriberCount := "1", videoCount := "2", viewCount := "3" }
    uploadsPlaylistId := "UU" }

/-- 120 identifiers: 50 × "a", then 50 × "b", then 20 × "a". -/
def batchIds : List String :=
  List.replicate 50 "a" ++ List.replicate 50 "b" ++ List.replicate 20 "a"

/-- Environment whose `channels` call fails exactly when the joined id string
starts with "b" (i.e. on the second chunk of `batchIds`) and otherwise
returns one sample item. -/
def batchEnv : ApiEnv :=
  { channels := fun ps =>
      match ps with
      | [_, (_, ids), _] =>
          if strStartsWith ids "b" then Except.error "boom"
          else Except.ok { items := some [sampleChannelItem] }
      | _ => Except.ok { items := some [sampleChannelItem] }
    search := fun _ => Except.error "unused"
    playlistItems := fun _ => Except.error "unused"
    videos := fun _ => Except.error "unused"
    dateMs := fun _ => 0
    minus12h := fun d => d }

set_option maxRecDepth 8000 in
/-- Witness for C8: on the 120 `batchIds` the batch fetch issues exactly the
3 chunked calls of sizes 50/50/20; the failing middle chunk is omitted and
the result is chunk 1's and chunk 3's channels concatenated. -/
theorem batch_chunking_and_partial_failure_witness :
    (getChannelStatsBatch batchEnv batchIds).2.map List.length = [50, 50, 20] ∧
    (getChannelStatsBatch batchEnv batchIds).1 =
      ((chunksOf50 batchIds).map (batchChunkFetch batchEnv)).flatten ∧
    (getChannelStatsBatch batchEnv batchIds).1 =
      [{ id := "UCx", title := "T", description := "D", customUrl := "c",
         publishedAt := "P", thumbnailUrl := "H", subscriberCount := "1",
         videoCount := "2", viewCount := "3", uploadsPlaylistId := "UU",
         status := ChannelStatus.active },
       { id := "UCx", title := "T", description := "D", customUrl := "c",
         publishedAt := "P", thumbnailUrl := "H", subscriberCount := "1",
         videoCount := "2", viewCount := "3", uploadsPlaylistId := "UU",
         status := ChannelStatus.active }] := by
  have h := batch_chunking_and_partial_failure batchEnv batchIds
  refine ⟨h.2.2.2.1 (by rfl), h.2.2.2.2.1, ?_⟩
  rw [h.2.2.2.2.1]
  decide

/-! ## Claim theorems: `getChannelVideos` -/

theorem originalOrderVideoId_of_isSome {item : PlaylistItem}
    (h : (playlistEntryVideoId item).isSome) :
    originalOrderVideoId item = Except.ok (playlistEntryVideoId item) := by
  cases hsn : item.snippet with
  | none => simp [playlistEntryVideoId, hsn] at h
  | some sn =>
      cases hr : sn.resourceId with
      | none => simp [playlistEntryVideoId, hsn, hr] at h
      | some rid => simp [originalOrderVideoId, playlistEntryVideoId, hsn, hr]

theorem mapM_originalOrderVideoId (its : List PlaylistItem)
    (hwf : ∀ it ∈ its, ∃ v, playlistEntryVideoId it = some v ∧ v ≠ "") :
    its.mapM originalOrderVideoId = Except.ok (its.map playlistEntryVideoId) := by
  induction its with
  | nil => rfl
  | cons it rest ih =>
      obtain ⟨v, hv, _⟩ := hwf it (List.mem_cons_self it rest)
      rw [List.mapM_cons, originalOrderVideoId_of_isSome (by simp [hv]),
        except_bind_ok, ih (fun x hx => hwf x (List.mem_cons_of_mem it hx)),
        except_bind_ok, except_pure, List.map_cons]

theorem playlistVideoIds_cons_of_some {it : PlaylistItem} {v : String}
    (rest : List PlaylistItem) (hv : playlistEntryVideoId it = some v) (hne : v ≠ "") :
    playlistVideoIds (it :: rest) = v :: playlistVideoIds rest := by
  simp [playlistVideoIds, List.filterMap_cons, hv, hne]

theorem playlistVideoIds_ne_nil {its : List PlaylistItem} (hne : its ≠ [])
    (hwf : ∀ it ∈ its, ∃ v, playlistEntryVideoId it = some v ∧ v ≠ "") :
    playlistVideoIds its ≠ [] := by
  cases its with
  | nil => exact absurd rfl hne
  | cons it rest =>
      obtain ⟨v, hv, hvne⟩ := hwf it (List.mem_cons_self it rest)
      rw [playlistVideoIds_cons_of_some rest hv hvne]
      simp

theorem filterMap_bind_eq_filterMap_ids (vitems : List VideoItem) :
    ∀ (its : List PlaylistItem),
      (∀ it ∈ its, ∃ v, playlistEntryVideoId it = some v ∧ v ≠ "") →
      (its.map playlistEntryVideoId).filterMap
          (fun oid => (oid.bind fun id => jsMapGet vitems id).map mkVideoStatOfItem) =
        (playlistVideoIds its).filterMap
          (fun v => (jsMapGet vitems v).map mkVideoStatOfItem) := by
  intro its hwf
  induction its with
  | nil => rfl
  | cons it rest ih =>
      obtain ⟨v, hv, hvne⟩ := hwf it (List.mem_cons_self it rest)
      rw [List.map_cons, List.filterMap_cons, playlistVideoIds_cons_of_some rest hv hvne,
        List.filterMap_cons, hv, ih (fun x hx => hwf x (List.mem_cons_of_mem it hx))]
      rfl

theorem jsMapGet_id {vitems : List VideoItem} {x : String} {item : VideoItem}
    (h : jsMapGet vitems x = some item) : item.id = x := by
  have := List.find?_some h
  simpa using this

theorem jsMapGet_mem {vitems : List VideoItem} {x : String} {item : VideoItem}
    (h : jsMapGet vitems x = some item) : item ∈ vitems := by
  have := List.mem_of_find?_eq_some h
  simpa using this

theorem jsMapGet_eq_none_iff {vitems : List VideoItem} {x : String} :
    jsMapGet vitems x = none ↔ ∀ item ∈ vitems, item.id ≠ x := by
  constructor
  · intro h item hmem
    rw [jsMapGet, List.find?_eq_none] at h
    simpa using h item (List.mem_reverse.mpr hmem)
  · intro h
    rw [jsMapGet, List.find?_eq_none]
    intro item hmem
    simpa using h item (List.mem_reverse.mp hmem)

theorem jsMapGet_eq_some_iff {vitems : List VideoItem} {x : String} {item : VideoItem}
    (hn : (vitems.map VideoItem.id).Nodup) :
    jsMapGet vitems x = some item ↔ item ∈ vitems ∧ item.id = x := by
  constructor
  · intro h
    exact ⟨jsMapGet_mem h, jsMapGet_id h⟩
  · rintro ⟨hmem, hid⟩
    cases hfind : jsMapGet vitems x with
    | none => exact absurd hid (jsMapGet_eq_none_iff.mp hfind item hmem)
    | some item' =>
        have h1 : item' ∈ vitems := jsMapGet_mem hfind
        have h2 : item'.id = x := jsMapGet_id hfind
        have : item = item' :=
          List.inj_on_of_nodup_map hn hmem h1 (by rw [hid, h2])
        rw [this]

theorem jsMapGet_perm {vitems vitems' : List VideoItem}
    (hperm : vitems.Perm vitems') (hn : (vitems.map VideoItem.id).Nodup)
    (x : String) : jsMapGet vitems x = jsMapGet vitems' x := by
  have hn' : (vitems'.map VideoItem.id).Nodup := ((hperm.map VideoItem.id).nodup_iff).mp hn
  cases h1 : jsMapGet vitems x with
  | none =>
      rw [eq_comm, jsMapGet_eq_none_iff]
      intro item hmem
      exact jsMapGet_eq_none_iff.mp h1 item (hperm.mem_iff.mpr hmem)
  | some item =>
      obtain ⟨hmem, hid⟩ := (jsMapGet_eq_some_iff hn).mp h1
      rw [eq_comm, jsMapGet_eq_some_iff hn']
      exact ⟨hperm.mem_iff.mp hmem, hid⟩

theorem map_id_filterMap_jsMapGet (vitems : List VideoItem) (ids : List String) :
    ((ids.filterMap (fun v => (jsMapGet vitems v).map mkVideoStatOfItem)).map VideoStat.id) =
      ids.filter (fun v => (jsMapGet vitems v).isSome) := by
  induction ids with
  | nil => rfl
  | cons v rest ih =>
      rw [List.filterMap_cons, List.filter_cons]
      cases hfind : jsMapGet vitems v with
      | none => simpa using ih
      | some item =>
          simp [hfind, ih, mkVideoStatOfItem, jsMapGet_id hfind]

theorem getChannelVideos_success_eq (env : ApiEnv) (playlistId : String)
    (maxResults : Nat) (pageToken : Option String) (its : List PlaylistItem)
    (tok : Option String) (vitems : List VideoItem)
    (hits : env.playlistItems (playlistPageParams playlistId maxResults pageToken) =
      Except.ok { items := some its, nextPageToken := tok })
    (hne : its ≠ [])
    (hwf : ∀ it ∈ its, ∃ v, playlistEntryVideoId it = some v ∧ v ≠ "")
    (hvid : env.videos
        [("part", "snippet,statistics"),
         ("id", String.intercalate "," (playlistVideoIds its))] =
      Except.ok { items := some vitems }) :
    getChannelVideos env playlistId maxResults pageToken =
      ((playlistVideoIds its).filterMap
        (fun v => (jsMapGet vitems v).map mkVideoStatOfItem), tok) := by
  have hempty : (playlistVideoIds its).isEmpty = false := by
    simp [playlistVideoIds_ne_nil hne hwf]
  cases its with
  | nil => exact absurd rfl hne
  | cons it rest =>
      rw [← filterMap_bind_eq_filterMap_ids vitems (it :: rest) hwf]
      simp only [getChannelVideos, hits, except_bind_ok, hempty, Bool.false_eq_true,
        if_false, hvid, mapM_originalOrderVideoId (it :: rest) hwf, except_pure]

/-- C7: for a playlist page whose entries all carry (non-empty) video ids,
the returned videos follow the playlist page's original entry order — the
result's id sequence is the playlist's id sequence filtered to the ids
present in the statistics response, entries with absent ids being omitted
rather than null-padded — and the result does not depend on the order of the
statistics response (any permutation of a duplicate-free statistics response
yields the same page); when the playlist call or the statistics call fails,
the result is the empty video list with no continuation token instead of an
exception. -/
theorem video_page_order_omission_and_failure (env : ApiEnv) (playlistId : String)
    (maxResults : Nat) (pageToken : Option String) (its : List PlaylistItem)
    (tok : Option String) (vitems : List VideoItem)
    (hits : env.playlistItems (playlistPageParams playlistId maxResults pageToken) =
      Except.ok { items := some its, nextPageToken := tok })
    (hne : its ≠ [])
    (hwf : ∀ it ∈ its, ∃ v, playlistEntryVideoId it = some v ∧ v ≠ "")
    (hvid : env.videos
        [("part", "snippet,statistics"),
         ("id", String.intercalate "," (playlistVideoIds its))] =
      Except.ok { items := some vitems }) :
    (getChannelVideos env playlistId maxResults pageToken =
      ((playlistVideoIds its).filterMap
        (fun v => (jsMapGet vitems v).map mkVideoStatOfItem), tok)) ∧
    ((getChannelVideos env playlistId maxResults pageToken).1.map VideoStat.id =
      (playlistVideoIds its).filter (fun v => (jsMapGet vitems v).isSome)) ∧
    (∀ env2 vitems', vitems.Perm vitems' → (vitems.map VideoItem.id).Nodup →
      env2.playlistItems (playlistPageParams playlistId maxResults pageToken) =
        Except.ok { items := some its, nextPageToken := tok } →
      env2.videos
          [("part", "snippet,statistics"),
           ("id", String.intercalate "," (playlistVideoIds its))] =
        Except.ok { items := some vitems' } →
      getChannelVideos env2 playlistId maxResults pageToken =
        getChannelVideos env playlistId maxResults pageToken) ∧
    (∀ env2 e, env2.playlistItems (playlistPageParams playlistId maxResults pageToken) =
        Except.error e →
      getChannelVideos env2 playlistId maxResults pageToken = ([], none)) ∧
    (∀ env2 e,
      env2.playlistItems (playlistPageParams playlistId maxResults pageToken) =
        Except.ok { items := some its, nextPageToken := tok } →
      env2.videos
          [("part", "snippet,statistics"),
           ("id", String.intercalate "," (playlistVideoIds its))] =
        Except.error e →
      getChannelVideos env2 playlistId maxResults pageToken = ([], none)) := by
  have hmain := getChannelVideos_success_eq env playlistId maxResults pageToken
    its tok vitems hits hne hwf hvid
  have hempty : (playlistVideoIds its).isEmpty = false := by
    simp [playlistVideoIds_ne_nil hne hwf]
  refine ⟨hmain, ?_, ?_, ?_, ?_⟩
  · rw [hmain]
    exact map_id_filterMap_jsMapGet vitems (playlistVideoIds its)
  · intro env2 vitems' hperm hn hits2 hvid2
    rw [getChannelVideos_success_eq env2 playlistId maxResults pageToken
      its tok vitems' hits2 hne hwf hvid2, hmain]
    simp only [jsMapGet_perm hperm hn]
  · intro env2 e herr
    simp [getChannelVideos, herr, except_bind_error]
  · intro env2 e hits2 herr
    cases its with
    | nil => exact absurd rfl hne
    | cons it rest =>
        simp only [getChannelVideos, hits2, except_bind_ok, hempty, Bool.false_eq_true,
          if_false, herr, except_bind_error]

/-- A playlist entry carrying video id `v`. -/
def plEntry (v : String) : PlaylistItem :=
  { snippet := some { resourceId := some { videoId := some v } } }

/-- A statistics item for video id `i`. -/
def vItem (i : String) : VideoItem :=
  { id := i
    snippet := { publishedAt := "p" ++ i, title := "t" ++ i, description := "",
                 thumbnailsHighUrl := none, thumbnailsDefaultUrl := "d" }
    statistics := { viewCount := "1", likeCount := "2", commentCount := "3" } }

/-- Environment for the C7 witness: the playlist page lists v1, v2, v3 (in
that order) with a continuation token, while the statistics response arrives
in the order v2, v1 and is missing v3 entirely. -/
def videoPageEnv : ApiEnv :=
  { channels := fun _ => Except.error "unused"
    search := fun _ => Except.error "unused"
    playlistItems := fun _ =>
      Except.ok { items := some [plEntry "v1", plEntry "v2", plEntry "v3"],
                  nextPageToken := some "TOK" }
    videos := fun _ => Except.ok { items := some [vItem "v2", vItem "v1"] }
    dateMs := fun _ => 0
    minus12h := fun d => d }

/-- Witness for C7: the page comes back in playlist order v1, v2 (although
the statistics response was ordered v2, v1), v3 is dropped because the
statistics response lacks it, and the continuation token is passed through. -/
theorem video_page_order_omission_and_failure_witness :
    (getChannelVideos videoPageEnv "PL" 5 none).1.map VideoStat.id = ["v1", "v2"] ∧
    (getChannelVideos videoPageEnv "PL" 5 none).2 = some "TOK" ∧
    getChannelVideos videoPageEnv "PL" 5 none =
      ([mkVideoStatOfItem (vItem "v1"), mkVideoStatOfItem (vItem "v2")], some "TOK") := by
  have hwf : ∀ it ∈ [plEntry "v1", plEntry "v2", plEntry "v3"],
      ∃ v, playlistEntryVideoId it = some v ∧ v ≠ "" := by
    intro it hit
    simp only [List.mem_cons, List.not_mem_nil, or_false] at hit
    rcases hit with rfl | rfl | rfl
    · exact ⟨"v1", rfl, by decide⟩
    · exact ⟨"v2", rfl, by decide⟩
    · exact ⟨"v3", rfl, by decide⟩
  have h := video_page_order_omission_and_failure videoPageEnv "PL" 5 none
    [plEntry "v1", plEntry "v2", plEntry "v3"] (some "TOK") [vItem "v2", vItem "v1"]
    rfl (by decide) hwf rfl
  refine ⟨?_, ?_, ?_⟩
  · rw [h.2.1]
    rfl
  · rw [h.1]
  · rw [h.1]
    rfl
